import Mathlib

/-!
# Verification of the Real-Debrid media-organizer pipeline

Shallow embedding of the classification, correction and grouping logic of the
repository (`media-organizer/modules/classifier.py`, `jav_detector.py`,
`smart_cache.py`, `correction_processor.py` and
`Real-debrid-Strm/app/real_debrid_processor.py`), together with proofs of the
specified properties.

Python regular expressions are embedded through a small executable
backtracking engine (`Re.search` below) that mirrors `re.search` / `re.sub`
semantics for the constructs the sources use: character classes, bounded and
unbounded greedy repetition, alternation, capture groups, anchors and word
boundaries, with an optional IGNORECASE flag.  Python dictionaries are
embedded as insertion-ordered association lists, Python sets as duplicate-free
lists, float confidences as rationals, and collaborator services (OpenAI,
TMDB, the filesystem hash) as oracle functions supplied in an environment
record.
-/

namespace RDMO

/-! ## Python-flavoured string primitives -/

/-- Whitespace as matched by Python `\s` / `str.strip` (ASCII part). -/
def isPySpace (c : Char) : Bool :=
  c == ' ' || c == '\t' || c == '\n' || c == '\r' || c == '\x0b' || c == '\x0c'

/-- Word characters as matched by Python `\w` (ASCII part: the sources only
feed it ASCII-relevant decisions). -/
def isPyWord (c : Char) : Bool :=
  c.isAlphanum || c == '_'

/-- `s.startswith(pat)` on character lists. -/
def startsWithL : List Char → List Char → Bool
  | _, [] => true
  | [], _ :: _ => false
  | a :: as, b :: bs => a == b && startsWithL as bs

/-- `pat in s` (substring test) on character lists. -/
def containsL : List Char → List Char → Bool
  | [], pat => pat.isEmpty
  | s@(_ :: rest), pat => startsWithL s pat || containsL rest pat

/-- Python `pat in s` substring test. -/
def strContains (s pat : String) : Bool := containsL s.data pat.data

/-- Python `s.startswith(pat)`. -/
def strStartsWith (s pat : String) : Bool := startsWithL s.data pat.data

/-- Python `s.endswith(pat)`. -/
def strEndsWith (s pat : String) : Bool :=
  startsWithL s.data.reverse pat.data.reverse

/-- Python `str.lower` (ASCII case mapping). -/
def pyLower (s : String) : String := String.mk (s.data.map Char.toLower)

/-- Python `str.upper` (ASCII case mapping). -/
def pyUpper (s : String) : String := String.mk (s.data.map Char.toUpper)

/-- Python `str.strip()` (strip whitespace at both ends). -/
def pyStrip (s : String) : String :=
  String.mk (((s.data.dropWhile isPySpace).reverse.dropWhile isPySpace).reverse)

/-- Python `str.split()` with no separator: split on whitespace runs,
dropping empty pieces. -/
def pySplitWsAux : List Char → List Char → List String
  | [], acc => if acc.isEmpty then [] else [String.mk acc.reverse]
  | c :: rest, acc =>
    if isPySpace c then
      if acc.isEmpty then pySplitWsAux rest []
      else String.mk acc.reverse :: pySplitWsAux rest []
    else pySplitWsAux rest (c :: acc)

/-- Python `str.split()` (whitespace mode). -/
def pySplitWs (s : String) : List String := pySplitWsAux s.data []

/-- Python `str.split(sep)` for a one-character separator, keeping empties. -/
def splitCharAux (c : Char) : List Char → List Char → List String
  | [], acc => [String.mk acc.reverse]
  | d :: rest, acc =>
    if d == c then String.mk acc.reverse :: splitCharAux c rest []
    else splitCharAux c rest (d :: acc)

/-- Python `s.split(c)` for a single-character separator. -/
def splitChar (c : Char) (s : String) : List String := splitCharAux c s.data []

/-- Python `s[:n]` (slice by code points). -/
def pyTake (n : Nat) (s : String) : String := String.mk (s.data.take n)

/-- One `urllib.parse.unquote` pass.  `%XX` hex escapes are decoded to the
character with that code point (the byte-level UTF-8 reassembly that Python
performs for multi-byte sequences is approximated per byte; every claim below
only exercises ASCII escapes). -/
def pyUnquoteAux : List Char → List Char
  | [] => []
  | '%' :: a :: b :: rest =>
    if a.isDigit || (('A' ≤ a && a ≤ 'F') || ('a' ≤ a && a ≤ 'f')) then
      if b.isDigit || (('A' ≤ b && b ≤ 'F') || ('a' ≤ b && b ≤ 'f')) then
        let hv : Char → Nat := fun c =>
          if c.isDigit then c.toNat - '0'.toNat
          else if 'a' ≤ c then c.toNat - 'a'.toNat + 10
          else c.toNat - 'A'.toNat + 10
        Char.ofNat (16 * hv a + hv b) :: pyUnquoteAux rest
      else '%' :: pyUnquoteAux (a :: b :: rest)
    else '%' :: pyUnquoteAux (a :: b :: rest)
  | c :: rest => c :: pyUnquoteAux rest

/-- Python `urllib.parse.unquote` (single pass). -/
def pyUnquote (s : String) : String := String.mk (pyUnquoteAux s.data)

/-- The bounded decode loop used in `sanitize_filename` and
`extract_filename_from_url`: up to `n` unquote passes, stopping early at a
fixpoint. -/
def unquoteLoop : Nat → String → String
  | 0, s => s
  | n + 1, s =>
    let t := pyUnquote s
    if t = s then s else unquoteLoop n t

/-! ## A small backtracking regex engine (Python `re` semantics) -/

/-- Character classes. -/
inductive CC where
  | lit (c : Char)
  | digit
  | space
  | wordc
  | anyc
  | rng (a b : Char)
  | oneOf (cs : List Char)
  | compl (c : CC)
  | or2 (a b : CC)
  deriving Repr

/-- Does character class `cc` match `c`?  `ign` is the IGNORECASE flag; as in
Python it folds the candidate character against literals and ranges. -/
def ccMatch (ign : Bool) : CC → Char → Bool
  | .lit a, c => c == a || (ign && c.toLower == a.toLower)
  | .digit, c => c.isDigit
  | .space, c => isPySpace c
  | .wordc, c => isPyWord c
  | .anyc, c => c != '\n'
  | .rng a b, c =>
    (a ≤ c && c ≤ b) ||
      (ign && ((a ≤ c.toLower && c.toLower ≤ b) || (a ≤ c.toUpper && c.toUpper ≤ b)))
  | .oneOf cs, c => cs.contains c || (ign && (cs.contains c.toLower || cs.contains c.toUpper))
  | .compl cc, c => !ccMatch ign cc c
  | .or2 a b, c => ccMatch ign a c || ccMatch ign b c

/-- Regular expressions.  `rep a lo hi` is the bounded greedy repetition
`a{lo,hi}`; `grp i a` is the capture group number `i`. -/
inductive Re where
  | eps
  | cls (c : CC)
  | cat (a b : Re)
  | alt (a b : Re)
  | star (a : Re)
  | rep (a : Re) (lo hi : Nat)
  | grp (i : Nat) (a : Re)
  | bol
  | eol
  | wordB
  deriving Repr

/-- Greedy `+`. -/
def rplus (a : Re) : Re := .cat a (.star a)

/-- A literal string as a regex (each character a literal class). -/
def rlit (s : String) : Re := (s.data.map (fun c => Re.cls (.lit c))).foldr .cat .eps

/-- Concatenation of a pattern list. -/
def rcat (l : List Re) : Re := l.foldr .cat .eps

/-- Captures collected during a match: group index paired with matched text. -/
abbrev Caps := List (Nat × String)

/-- Structural size of a regex (used to compute a sufficient fuel bound). -/
def reSize : Re → Nat
  | .eps => 1
  | .cls _ => 1
  | .cat a b => reSize a + reSize b + 1
  | .alt a b => reSize a + reSize b + 1
  | .star a => reSize a + 1
  | .rep a _ hi => (reSize a + 1) * (hi + 1) + 1
  | .grp _ a => reSize a + 1
  | .bol => 1
  | .eol => 1
  | .wordB => 1

/-- The backtracking matcher.  `left` is the reversed consumed prefix (for
`^` and `\b`), `right` the remaining input, `k` the success continuation.
Greedy preference and leftmost alternative preference follow Python; a `star`
iteration must consume at least one character (Python's engine likewise
refuses empty loop iterations).  `fuel` decreases on every call so that the
recursion is structural (and hence kernel-computable); `matchFuel` below is a
coarse upper bound on the call depth, so the `fuel = 0` branch is never
reached from the wrappers. -/
def reMatch {α : Type} (ign : Bool) :
    Nat → Re → List Char → List Char → Caps → (List Char → List Char → Caps → Option α) →
    Option α
  | 0, _, _, _, _, _ => none
  | _ + 1, .eps, left, right, caps, k => k left right caps
  | _ + 1, .cls c, left, right, caps, k =>
    match right with
    | [] => none
    | ch :: rest => if ccMatch ign c ch then k (ch :: left) rest caps else none
  | f + 1, .cat a b, left, right, caps, k =>
    reMatch ign f a left right caps (fun l r cp => reMatch ign f b l r cp k)
  | f + 1, .alt a b, left, right, caps, k =>
    (reMatch ign f a left right caps k) <|> (reMatch ign f b left right caps k)
  | f + 1, .star a, left, right, caps, k =>
    (reMatch ign f a left right caps (fun l r cp =>
      if r.length < right.length then reMatch ign f (.star a) l r cp k else none)) <|>
    k left right caps
  | f + 1, .rep a lo hi, left, right, caps, k =>
    match lo, hi with
    | l' + 1, h' + 1 =>
      reMatch ign f a left right caps (fun l r cp => reMatch ign f (.rep a l' h') l r cp k)
    | _ + 1, 0 =>
      -- unreachable for well-formed bounds (lo ≤ hi)
      none
    | 0, h' + 1 =>
      (reMatch ign f a left right caps (fun l r cp =>
        reMatch ign f (.rep a 0 h') l r cp k)) <|>
      k left right caps
    | 0, 0 => k left right caps
  | f + 1, .grp i a, left, right, caps, k =>
    reMatch ign f a left right caps (fun l r cp =>
      k l r ((i, String.mk (right.take (right.length - r.length))) :: cp))
  | _ + 1, .bol, left, right, caps, k =>
    match left with
    | [] => k left right caps
    | _ :: _ => none
  | _ + 1, .eol, left, right, caps, k =>
    match right with
    | [] => k left right caps
    | ['\n'] => k left right caps
    | _ => none
  | _ + 1, .wordB, left, right, caps, k =>
    let pw := match left with | [] => false | c :: _ => isPyWord c
    let nw := match right with | [] => false | c :: _ => isPyWord c
    if pw != nw then k left right caps else none

/-- Fuel that over-approximates the matcher's call depth for pattern `r` on a
remaining input of length `n`: every call either descends into a strictly
smaller sub-pattern or, for `star`, consumes input first. -/
def matchFuel (r : Re) (n : Nat) : Nat :=
  (reSize r + 2) * (reSize r + 2) * (n + 2)

/-- `re.search` scanning: try a match at each start position, left to right.
Returns the captures of the first (leftmost) match. -/
def searchFrom (ign : Bool) (r : Re) : List Char → List Char → Option Caps
  | left, [] =>
    reMatch ign (matchFuel r 0) r left [] [] (fun _ _ caps => some caps)
  | left, right@(c :: rest) =>
    match reMatch ign (matchFuel r right.length) r left right [] (fun _ _ caps => some caps) with
    | some caps => some caps
    | none => searchFrom ign r (c :: left) rest

/-- Python `re.search(r, s)`, returning the captures on success. -/
def search (ign : Bool) (r : Re) (s : String) : Option Caps :=
  searchFrom ign r [] s.data

/-- Did `re.search` find a match? -/
def found (ign : Bool) (r : Re) (s : String) : Bool := (search ign r s).isSome

/-- `match.groups()`: the capture texts for groups `1..n`, empty when a group
did not participate (never the case for the patterns embedded here). -/
def getGroups (n : Nat) (caps : Caps) : List String :=
  (List.range n).map (fun i => ((caps.find? (fun p => p.1 == i + 1)).map Prod.snd).getD "")

/-- Leftmost match attempt that also reports how many characters the match
consumed (used by `re.sub`). -/
def matchLen (ign : Bool) (r : Re) (left right : List Char) : Option Nat :=
  reMatch ign (matchFuel r right.length) r left right []
    (fun _ rrem _ => some (right.length - rrem.length))

/-- Python `re.sub(r, repl, s)` with a literal replacement: replace every
non-overlapping leftmost match.  An empty match emits the replacement and
advances one character (the sources never produce empty matches).  The fuel
argument makes the recursion structural; each step consumes at least one
input character, so `right.length + 1` is always enough. -/
def subAllAux (ign : Bool) (r : Re) (repl : List Char) :
    Nat → List Char → List Char → List Char
  | 0, _, _ => []
  | _ + 1, left, [] =>
    match matchLen ign r left [] with
    | some _ => repl
    | none => []
  | f + 1, left, right@(c :: rest) =>
    match matchLen ign r left right with
    | none => c :: subAllAux ign r repl f (c :: left) rest
    | some 0 => repl ++ c :: subAllAux ign r repl f (c :: left) rest
    | some (n + 1) =>
      repl ++ subAllAux ign r repl f ((right.take (n + 1)).reverse ++ left) (right.drop (n + 1))

/-- Python `re.sub` on strings. -/
def pySub (ign : Bool) (r : Re) (repl : String) (s : String) : String :=
  String.mk (subAllAux ign r repl.data (s.data.length + 1) [] s.data)

/-! ## `modules/config.py`: the JAV studio-code whitelist -/

/-- `JAV_PREFIXES` from `modules/config.py` (a Python set literal; the
duplicated elements of the literal are harmless for membership). -/
def JAV_WHITELIST : List String :=
  ["STARS", "START", "SDJS", "SDMU", "DSVR", "SSHN", "OKYH", "STAR",
   "SSIS", "SSNI", "SNIS", "SIVR", "ONED", "ONE", "SRS",
   "MIDE", "MIDV", "MIDD", "MIRD", "MIFD", "MIMK", "MIAA", "MDVR", "MIAD", "MIAE",
   "MIAS", "MIXS", "MIGD", "MIID", "MDLD", "MINT",
   "ABP", "ABS", "ABF", "CHN", "BGN",
   "DVAJ", "AJVR", "DV", "KA",
   "WANZ", "WAAA",
   "ADN", "ATID", "RBD", "SHKD", "JBD",
   "DASD", "DAZD", "DASS",
   "PPPD", "PPPE", "PPSD", "PPFD", "PPMD", "PPUD", "PPBD", "PPVR",
   "AVERV", "MDB", "BAZX", "BZVR", "BMVR", "BMVRS", "DPVR", "EXVR", "HOTVR",
   "KBVR", "KMVR", "VRKM", "SAVR", "SQVR", "BOKD",
   "JUX", "JUL", "JUR", "JUFD", "JUFE",
   "IPX", "IPZ", "IPTD", "IPZZ",
   "EBOD", "NHDTA", "HBAD",
   "FSDSS", "FLNS", "FSLV",
   "PRED", "MEYD", "JUY", "SPRD", "MVSD", "MXGS", "MXBD",
   "SDAB", "SDSI", "SDDE", "SDMU", "SDJS", "SDTH", "SDEN",
   "DOKS", "DOCP", "DOCD",
   "AVSA", "AVOP", "AVKH", "AVGL", "AVSW",
   "SERO", "FC2", "HUNTA", "HUNT", "HMN", "HMJM",
   "MIZD", "MIDA", "MIDV", "ROYD", "SAME", "PFES", "GVH", "ALDN", "BF",
   "REBD", "MD", "MXBD", "SONE", "ZSD", "ABP"]

/-! ## `modules/jav_detector.py`: `is_jav_prefix` -/

/-- `[A-Z0-9]` -/
def ccAZ09 : CC := .or2 (.rng 'A' 'Z') (.rng '0' '9')

/-- `[-_]` -/
def ccDash : CC := .oneOf ['-', '_']

/-- `[-_\s]` -/
def ccDashWs : CC := .or2 (.oneOf ['-', '_']) .space

/-- `([A-Z0-9]{2,6})` as capture group `i`. -/
def grpPre (i : Nat) : Re := .grp i (.rep (.cls ccAZ09) 2 6)

/-- `(\d{lo,hi})` as capture group `i`. -/
def grpNum (i lo hi : Nat) : Re := .grp i (.rep (.cls .digit) lo hi)

/-- A detection pattern of `is_jav_prefix`: regex, number of capture groups,
and whether the pattern source text contains `fc2` (Python tests
`'fc2' in pattern.lower()`). -/
structure JPat where
  re : Re
  n : Nat
  fc2 : Bool

/-- `FC2[-_]PPV[-_](\d{4,7})` (`ls` selects the literal casing of the
source text; matching is IGNORECASE so the casing is inert). -/
def fc2Core (ls : Bool) : Re :=
  rcat [rlit (if ls then "fc2" else "FC2"), .cls ccDash,
        rlit (if ls then "ppv" else "PPV"), .cls ccDash, grpNum 1 4 7]

/-- The pattern list of `is_jav_prefix`, in source order. -/
def javPatterns : List JPat :=
  [ -- ([A-Z0-9]{2,6})[-_](\d{3,5})
    ⟨rcat [grpPre 1, .cls ccDash, grpNum 2 3 5], 2, false⟩,
    -- ([A-Z0-9]{2,6})\s+(\d{3,5})
    ⟨rcat [grpPre 1, rplus (.cls .space), grpNum 2 3 5], 2, false⟩,
    -- ([A-Z0-9]{2,6})(\d{3,5})
    ⟨rcat [grpPre 1, grpNum 2 3 5], 2, false⟩,
    -- @([A-Z0-9]{2,6})[-_](\d{3,5})
    ⟨rcat [.cls (.lit '@'), grpPre 1, .cls ccDash, grpNum 2 3 5], 2, false⟩,
    -- \.com@([A-Z0-9]{2,6})[-_\s](\d{3,5})
    ⟨rcat [.cls (.lit '.'), rlit "com@", grpPre 1, .cls ccDashWs, grpNum 2 3 5], 2, false⟩,
    -- ([0-9]+bbs)\s+Com@([A-Z0-9]{2,6})[-_\s](\d{3,5})
    ⟨rcat [.grp 1 (.cat (rplus (.cls (.rng '0' '9'))) (rlit "bbs")), rplus (.cls .space),
           rlit "Com@", grpPre 2, .cls ccDashWs, grpNum 3 3 5], 3, false⟩,
    -- ([A-Z0-9]{2,6})[-_](\d{3,5})[-_\[]
    ⟨rcat [grpPre 1, .cls ccDash, grpNum 2 3 5, .cls (.oneOf ['-', '_', '['])], 2, false⟩,
    -- h[hd]d\d+\.com@([A-Z0-9]{2,6})[-_](\d{3,5})
    ⟨rcat [.cls (.lit 'h'), .cls (.oneOf ['h', 'd']), .cls (.lit 'd'), rplus (.cls .digit),
           .cls (.lit '.'), rlit "com@", grpPre 1, .cls ccDash, grpNum 2 3 5], 2, false⟩,
    -- ([A-Z0-9]{2,6})[-_](\d{3,5})[a-z]+
    ⟨rcat [grpPre 1, .cls ccDash, grpNum 2 3 5, rplus (.cls (.rng 'a' 'z'))], 2, false⟩,
    -- ([A-Z0-9]{2,6})[-_](\d{3,5})[-_]uncensored
    ⟨rcat [grpPre 1, .cls ccDash, grpNum 2 3 5, .cls ccDash, rlit "uncensored"], 2, false⟩,
    -- ([A-Z0-9]{2,6})[-_](\d{3,5})\.TS
    ⟨rcat [grpPre 1, .cls ccDash, grpNum 2 3 5, .cls (.lit '.'), rlit "TS"], 2, false⟩,
    -- ([A-Z0-9]{2,6})[-_](\d{3,5})_\[4K\]
    ⟨rcat [grpPre 1, .cls ccDash, grpNum 2 3 5, rlit "_[4K]"], 2, false⟩,
    -- \(Uncensored[^)]*\)\s*([A-Z0-9]{2,6})[-_](\d{3,5})
    ⟨rcat [.cls (.lit '('), rlit "Uncensored", .star (.cls (.compl (.oneOf [')']))),
           .cls (.lit ')'), .star (.cls .space), grpPre 1, .cls ccDash, grpNum 2 3 5], 2, false⟩,
    -- ([A-Z0-9]{2,6})[-_](\d{3,5})[^a-zA-Z0-9]
    ⟨rcat [grpPre 1, .cls ccDash, grpNum 2 3 5,
           .cls (.compl (.or2 (.rng 'a' 'z') (.or2 (.rng 'A' 'Z') (.rng '0' '9'))))], 2, false⟩,
    -- FC2-PPV specific patterns
    ⟨fc2Core false, 1, true⟩,
    ⟨fc2Core true, 1, true⟩,
    ⟨rcat [.cls (.lit '.'), rlit "com@", fc2Core false], 1, true⟩,
    ⟨rcat [.cls (.lit '.'), rlit "com@", fc2Core true], 1, true⟩,
    ⟨.cat (fc2Core false) (.cls ccDash), 1, true⟩,
    ⟨.cat (fc2Core true) (.cls ccDash), 1, true⟩ ]

/-- `fc2[-_]?ppv` ("FC2-PPV anywhere" check). -/
def fc2Anywhere : Re := rcat [rlit "fc2", .rep (.cls ccDash) 0 1, rlit "ppv"]

/-- The decision taken on `match.groups()` inside the pattern loop of
`is_jav_prefix` (the extracted `code` variable of the source does not
influence the boolean result). -/
def javGroupsAccept (fc2 : Bool) (gs : List String) : Bool :=
  if gs.length ≥ 2 then
    let g0 := gs.getD 0 ""
    let pre0 :=
      if gs.length == 3 && strContains (pyLower g0) "bbs" then gs.getD 1 ""
      else if g0 ≠ "" then g0 else gs.getD 1 ""
    let pre1 := if fc2 then "FC2-PPV" else pre0
    JAV_WHITELIST.contains (pyUpper pre1) || strContains (pyUpper pre1) "FC2"
  else if gs.length == 1 then
    let pre0 := if fc2 then "FC2-PPV" else gs.getD 0 ""
    strContains (pyUpper pre0) "FC2"
  else false

/-- The pattern loop of `is_jav_prefix`: first pattern whose match satisfies
the whitelist test wins; a matching pattern that fails the test falls through
to the next pattern. -/
def javLoop (name : String) : List JPat → Bool
  | [] => false
  | p :: ps =>
    match search true p.re name with
    | some caps => if javGroupsAccept p.fc2 (getGroups p.n caps) then true else javLoop name ps
    | none => javLoop name ps

/-- `is_jav_prefix` from `modules/jav_detector.py`. -/
def is_jav_prefix (name : String) : Bool :=
  if javLoop name javPatterns then true
  else
    let nameUpper := pyUpper name
    if JAV_WHITELIST.any (fun p =>
        strStartsWith nameUpper (p ++ "-") || strStartsWith nameUpper (p ++ "_") ||
        strStartsWith nameUpper (p ++ " ") ||
        strContains nameUpper ("@" ++ p ++ "-") || strContains nameUpper ("@" ++ p ++ "_")) then
      true
    else found true fc2Anywhere name

/-! ## `modules/classifier.py`: spam filter and TV-show detector -/

/-- The spam/advertisement pattern list of `is_spam_or_ad`, in source order. -/
def spamPatterns : List Re :=
  [ rcat [rplus (.cls (.lit '★')), .star (.cls .anyc), rlit "免费", .star (.cls .anyc), rlit "手游"],
    rcat [rplus (.cls (.lit '★')), .star (.cls .anyc), rlit "免費", .star (.cls .anyc), rlit "手遊"],
    rcat [rlit "免费", .star (.cls .anyc), rlit "游戏"],
    rcat [rlit "免費", .star (.cls .anyc), rlit "遊戲"],
    rcat [rlit "18禁", .star (.cls .anyc), rlit "手游"],
    rcat [rlit "18禁", .star (.cls .anyc), rlit "手遊"],
    rlit "广告",
    rlit "廣告",
    rlit "推广",
    rlit "推廣",
    rcat [.star (.cls .anyc), .cls (.lit '.'), rlit "exe", .eol],
    rcat [.star (.cls .anyc), .cls (.lit '.'), rlit "msi", .eol],
    rcat [rlit "setup", .star (.cls .anyc), .cls (.lit '.'), rlit "exe"],
    rcat [rlit "install", .star (.cls .anyc), .cls (.lit '.'), rlit "exe"] ]

/-- `is_spam_or_ad` from `modules/classifier.py`. -/
def is_spam_or_ad (name : String) : Bool :=
  spamPatterns.any (fun r => found true r name)

/-- An ASCII apostrophe (used inside one of the show titles). -/
def apoCh : String := String.singleton (Char.ofNat 39)

/-- The fixed well-known show-title list of `is_tv_show`, in source order. -/
def tvShowNames : List String :=
  ["Family Guy", "Game of Thrones", "Breaking Bad", "Better Call Saul",
   "Black Mirror", "The Boys", "House of the Dragon", "Friends",
   "Smallville", "How I Met Your Mother", "Modern Family", "The Simpsons",
   "South Park", "Rick and Morty", "American Dad", "Futurama",
   "KonoSuba", "God" ++ apoCh ++ "s Blessing", "The Walking Dead", "Stranger Things",
   "The Office", "Sherlock", "Doctor Who", "Westworld", "Lost",
   "Prison Break", "Dexter", "True Detective", "Fargo", "The Crown",
   "Narcos", "Ozark", "The Witcher", "Mandalorian", "Vikings"]

/-- `S\d+E\d+` -/
def reSeasonEp : Re :=
  rcat [.cls (.lit 'S'), rplus (.cls .digit), .cls (.lit 'E'), rplus (.cls .digit)]

/-- `\b\d{1,2}x\d{1,2}\b` -/
def reNxM : Re :=
  rcat [.wordB, .rep (.cls .digit) 1 2, .cls (.lit 'x'), .rep (.cls .digit) 1 2, .wordB]

/-- The per-title loop of `is_tv_show`: a found show title plus a trailing
3-digit (or else 2-digit) compact episode code; otherwise the loop continues. -/
def tvNameLoop (name : String) : List String → Bool
  | [] => false
  | sh :: rest =>
    if found true (rlit sh) name then
      if found true (rcat [rlit sh, rplus (.cls .space), .rep (.cls .digit) 3 3, .wordB]) name then
        true
      else if found true (rcat [rlit sh, rplus (.cls .space), .rep (.cls .digit) 2 2, .wordB]) name then
        true
      else tvNameLoop name rest
    else tvNameLoop name rest

/-- `[^a-zA-Z]` -/
def ccNonAlpha : CC := .compl (.or2 (.rng 'a' 'z') (.rng 'A' 'Z'))

/-- `is_tv_show` from `modules/classifier.py`: the detector cascade in source
order (episode, compact NxM, known titles, season-only markers, `Season n`,
`Complete`-flavoured markers). -/
def is_tv_show (name : String) : Bool :=
  if found true reSeasonEp name then true
  else if found true reNxM name then true
  else if tvNameLoop name tvShowNames then true
  -- .S##.
  else if found true (rcat [.cls (.lit '.'), .cls (.lit 'S'), .rep (.cls .digit) 1 2,
                            .cls (.lit '.')]) name then true
  -- S##.
  else if found true (rcat [.cls (.lit 'S'), .rep (.cls .digit) 1 2, .cls (.lit '.')]) name then
    true
  -- .S##[^a-zA-Z]
  else if found true (rcat [.cls (.lit '.'), .cls (.lit 'S'), .rep (.cls .digit) 1 2,
                            .cls ccNonAlpha]) name then true
  -- S##[^a-zA-Z]
  else if found true (rcat [.cls (.lit 'S'), .rep (.cls .digit) 1 2, .cls ccNonAlpha]) name then
    true
  -- Season\s+\d+
  else if found true (rcat [rlit "Season", rplus (.cls .space), rplus (.cls .digit)]) name then
    true
  -- Complete.*Season
  else if found true (rcat [rlit "Complete", .star (.cls .anyc), rlit "Season"]) name then true
  -- S\d{1,2}.*Complete
  else if found true (rcat [.cls (.lit 'S'), .rep (.cls .digit) 1 2, .star (.cls .anyc),
                            rlit "Complete"]) name then true
  else false

/-! ## Association-list primitives (Python `dict` embedding)

Python dictionaries are embedded as insertion-ordered association lists with
unique keys; `insertA` is dict assignment (replace the existing binding in
place, else append), `lookupA` is indexing, `updateA` mutates the first
binding for a key. -/

/-- Dict lookup. -/
def lookupA {α : Type} : List (String × α) → String → Option α
  | [], _ => none
  | (k, v) :: rest, key => if k = key then some v else lookupA rest key

/-- Dict assignment: replace the first binding in place, else append. -/
def insertA {α : Type} : List (String × α) → String → α → List (String × α)
  | [], key, v => [(key, v)]
  | (k, w) :: rest, key, v =>
    if k = key then (k, v) :: rest else (k, w) :: insertA rest key v

/-- Mutate the value of the first binding for `key`. -/
def updateA {α : Type} (f : α → α) : List (String × α) → String → List (String × α)
  | [], _ => []
  | (k, v) :: rest, key =>
    if k = key then (k, f v) :: rest else (k, v) :: updateA f rest key

/-! ## `modules/smart_cache.py` and `modules/ai_classifier.py` -/

/-- An entry of `cache_data["processed_files"]` (the classification cache;
the spec's `CacheEntry`). -/
structure CacheEntry where
  classification : String
  filePath : Option String
  destPath : Option String
  deriving Repr, DecidableEq

/-- An entry of `cache_data["ai_classifications"]`. -/
structure AIEntry where
  classification : String
  confidence : ℚ
  deriving Repr, DecidableEq

/-- An entry of `cache_data["file_hashes"]` (keyed by content hash). -/
structure FileHashEntry where
  folderName : String
  classification : String
  deriving Repr, DecidableEq

/-- A `ManualCorrection` record of `manual_corrections["corrections"]`. -/
structure Correction where
  original : String
  correct : String
  reason : String
  applied : Bool
  correctTmdbId : Option String
  deriving Repr, DecidableEq

/-- A `LearningPattern` record (`_extract_learning_pattern`). -/
structure LearnPattern where
  folderName : String
  original : String
  correct : String
  javCode : Option String
  len : Nat
  hasNumbers : Bool
  hasLetters : Bool
  hasSpecialChars : Bool
  deriving Repr, DecidableEq

/-- The persistent state owned by `SmartCache` (classification cache, AI
cache, file-hash ledger, manual corrections and learning patterns).
Timestamps, which never influence control flow outside the age-based cleanup,
are omitted. -/
structure SmartCacheState where
  processedFiles : List (String × CacheEntry)
  aiClassifications : List (String × AIEntry)
  fileHashes : List (String × FileHashEntry)
  corrections : List (String × Correction)
  learningPatterns : List LearnPattern
  deriving Repr, DecidableEq

/-- The empty state a fresh `SmartCache` starts from. -/
def emptyState : SmartCacheState := ⟨[], [], [], [], []⟩

/-- The collaborator environment of the classification engine: OpenAI-client
availability, the outcome of an actual `classify_with_ai` collaborator call
(label and confidence, confidences as rationals), the configured confidence
threshold (`get_confidence_threshold()`), and the filesystem content hash
behind `get_file_hash`. -/
structure Env where
  aiAvailable : Bool
  aiResult : String → String → String × ℚ
  threshold : ℚ
  hashFile : String → String

/-- `get_cached_classification`. -/
def get_cached_classification (s : SmartCacheState) (name : String) : Option String :=
  (lookupA s.processedFiles name).map (fun e => e.classification)

/-- `is_file_processed`: the file hash is already in the ledger. -/
def is_file_processed (env : Env) (s : SmartCacheState) (p : String) : Bool :=
  (lookupA s.fileHashes (env.hashFile p)).isSome

/-- `cache_classification`: write the classification-cache entry for the
name, and when a file path is supplied also record its content hash. -/
def cache_classification (env : Env) (s : SmartCacheState) (name cls : String)
    (fp : Option String) : SmartCacheState :=
  let s1 := { s with processedFiles := insertA s.processedFiles name ⟨cls, fp, none⟩ }
  match fp with
  | some p =>
    { s1 with fileHashes := insertA s1.fileHashes (env.hashFile p) ⟨name, cls⟩ }
  | none => s1

/-- `cache_ai_classification`. -/
def cache_ai_classification (s : SmartCacheState) (name cls : String) (conf : ℚ) :
    SmartCacheState :=
  { s with aiClassifications := insertA s.aiClassifications name ⟨cls, conf⟩ }

/-- `update_cached_item` restricted to the `dest_path` key (the only use in
the sources): update the destination path of an existing cache entry; a
missing entry is left untouched (the source only logs a warning). -/
def update_cached_item (s : SmartCacheState) (name : String) (dest : String) :
    SmartCacheState :=
  if (lookupA s.processedFiles name).isSome then
    { s with processedFiles :=
        updateA (fun e => { e with destPath := some dest }) s.processedFiles name }
  else s

/-- `_extract_jav_pattern` (implemented identically in `smart_cache.py` and
`ai_classifier.py`): `([A-Z0-9]{2,6})[-_](\d{3,7})` else
`fc2[-_]?ppv[-_]?(\d{4,7})`. -/
def extract_jav_pattern (name : String) : Option String :=
  match search true (rcat [grpPre 1, .cls ccDash, grpNum 2 3 7]) name with
  | some caps =>
    let gs := getGroups 2 caps
    some (pyUpper (gs.getD 0 "") ++ "-" ++ gs.getD 1 "")
  | none =>
    match search true (rcat [rlit "fc2", .rep (.cls ccDash) 0 1, rlit "ppv",
                             .rep (.cls ccDash) 0 1, grpNum 1 4 7]) name with
    | some caps => some ("FC2-PPV-" ++ (getGroups 1 caps).getD 0 "")
    | none => none

/-- `any(c.isdigit() for c in folder_name)`. -/
def anyDigit (s : String) : Bool := s.data.any Char.isDigit

/-- `any(c.isalpha() for c in folder_name)`. -/
def anyAlpha (s : String) : Bool := s.data.any Char.isAlpha

/-- `_extract_learning_pattern` (always yields a pattern record; the
`if learning_pattern:` guard of the source is therefore always true). -/
def extract_learning_pattern (name orig correct : String) : LearnPattern :=
  { folderName := name
    original := orig
    correct := correct
    javCode := extract_jav_pattern name
    len := name.length
    hasNumbers := anyDigit name
    hasLetters := anyAlpha name
    hasSpecialChars := name.data.any (fun c => ("-_[]()".data).contains c) }

/-- `_pattern_matches`: the JAV-code feature short-circuits to a match; the
digit/letter features must otherwise both agree (the stored length and
special-character features are never consulted by the source). -/
def pattern_matches (name : String) (p : LearnPattern) : Bool :=
  let javHit :=
    match p.javCode with
    | some jc =>
      match extract_jav_pattern name with
      | some mine => strStartsWith mine ((splitChar '-' jc).headD "")
      | none => false
    | none => false
  if javHit then true
  else if p.hasNumbers != anyDigit name then false
  else if p.hasLetters != anyAlpha name then false
  else true

/-- The "suspicious pattern" list of `AIClassifier.should_use_ai`. -/
def suspiciousPatterns : List Re :=
  [ -- [A-Z0-9]{2,6}[-_]\d{3,7}
    rcat [.rep (.cls ccAZ09) 2 6, .cls ccDash, .rep (.cls .digit) 3 7],
    -- fc2[-_]?ppv
    fc2Anywhere,
    -- \d{3,7}[A-Z]{1,3}
    rcat [.rep (.cls .digit) 3 7, .rep (.cls (.rng 'A' 'Z')) 1 3],
    -- [A-Z]{2,6}\d{3,7}
    rcat [.rep (.cls (.rng 'A' 'Z')) 2 6, .rep (.cls .digit) 3 7],
    -- [A-Z]{2,6}\s+\d{3,7}
    rcat [.rep (.cls (.rng 'A' 'Z')) 2 6, rplus (.cls .space), .rep (.cls .digit) 3 7] ]

/-- `AIClassifier.should_use_ai`: requires an OpenAI client and a suspicious
surface pattern. -/
def ai_should_use_ai (aiAvailable : Bool) (name : String) : Bool :=
  if !aiAvailable then false
  else suspiciousPatterns.any (fun r => found true r name)

/-- `SmartCache.should_use_ai`: skip AI for already-processed files and
already-cached names; escalate on a learning-pattern match or on the AI
classifier's own heuristic. -/
def should_use_ai (env : Env) (s : SmartCacheState) (name : String) (fp : Option String) :
    Bool :=
  if (match fp with | some p => is_file_processed env s p | none => false) then false
  else if (get_cached_classification s name).isSome then false
  else if s.learningPatterns.any (pattern_matches name) then true
  else ai_should_use_ai env.aiAvailable name

/-- `AIClassifier.get_confidence_threshold`, as a function of the
`AI_CONFIDENCE_THRESHOLD` environment variable: an absent or blank variable
yields the 0.7 default, otherwise the decimal text is parsed (`none` models
the `float()` `ValueError` on unparseable text). -/
def digitsToNat (l : List Char) : Nat :=
  l.foldl (fun acc c => 10 * acc + (c.toNat - '0'.toNat)) 0

def parseDecimal (s : String) : Option ℚ :=
  let core : String → Option ℚ := fun t =>
    match splitChar '.' t with
    | [ip] =>
      if ip ≠ "" ∧ ip.data.all Char.isDigit then some ((digitsToNat ip.data : ℚ)) else none
    | [ip, fp] =>
      if (ip ≠ "" ∨ fp ≠ "") ∧ ip.data.all Char.isDigit ∧ fp.data.all Char.isDigit then
        some ((digitsToNat ip.data : ℚ) + (digitsToNat fp.data : ℚ) / ((10 : ℚ) ^ fp.length))
      else none
    | _ => none
  if strStartsWith s "-" then (core (String.mk s.data.tail)).map Neg.neg else core s

/-- `get_confidence_threshold` over the optional environment variable. -/
def get_confidence_threshold (envVar : Option String) : Option ℚ :=
  let s := envVar.getD "0.7"
  if s = "" ∨ pyStrip s = "" then some (7 / 10) else parseDecimal s

/-- Which pipeline stage produced the label (instrumentation of the branch
taken by `classify_folder`; the source's control flow is unchanged). -/
inductive Stage where
  | cacheHit
  | spam
  | jav
  | tv
  | movieDefault
  | aiOverride
  deriving Repr, DecidableEq

/-- The outcome of `classify_folder`: label, post state, deciding stage. -/
structure ClassifyResult where
  label : String
  state : SmartCacheState
  stage : Stage
  deriving Repr, DecidableEq

/-- `classify_folder` from `modules/classifier.py`: cache lookup, then
spam → JAV → TV in order, else the `Movie` default with optional AI
escalation; every cache-miss branch caches its final label.  The actual
OpenAI exchange of `classify_with_ai` is the collaborator oracle
`env.aiResult`; its own result cache (`smart_cache.ai_classifications`) and
the threshold comparison are embedded as in the source. -/
def classify_folder (env : Env) (s : SmartCacheState) (name : String) (fp : Option String) :
    ClassifyResult :=
  match get_cached_classification s name with
  | some c => ⟨c, s, .cacheHit⟩
  | none =>
    if is_spam_or_ad name then
      ⟨"SKIP", cache_classification env s name "SKIP" fp, .spam⟩
    else if is_jav_prefix name then
      ⟨"JAV", cache_classification env s name "JAV" fp, .jav⟩
    else if is_tv_show name then
      ⟨"Shows", cache_classification env s name "Shows" fp, .tv⟩
    else
      let traditional := "Movie"
      if should_use_ai env s name fp then
        let step :=
          match lookupA s.aiClassifications name with
          | some e => (e.classification, e.confidence, s)
          | none =>
            let (c, q) := env.aiResult name traditional
            (c, q, cache_ai_classification s name c q)
        let aiCls := step.1
        let conf := step.2.1
        let s1 := step.2.2
        if env.threshold ≤ conf then
          ⟨aiCls, cache_classification env s1 name aiCls fp, .aiOverride⟩
        else
          ⟨traditional, cache_classification env s1 name traditional fp, .movieDefault⟩
      else
        ⟨traditional, cache_classification env s name traditional fp, .movieDefault⟩

/-- `add_manual_correction`: record the correction with `applied = false`,
append the derived learning pattern.  (The forward to the AI collaborator's
own learning store is external best-effort I/O, spec §6.) -/
def add_manual_correction (s : SmartCacheState) (name orig correct reason : String)
    (tmdbId : Option String) : SmartCacheState :=
  let s1 := { s with corrections := insertA s.corrections name ⟨orig, correct, reason, false, tmdbId⟩ }
  { s1 with learningPatterns := s1.learningPatterns ++ [extract_learning_pattern name orig correct] }

/-- `get_unapplied_corrections`: all corrections with `applied = false`,
paired with their folder name. -/
def get_unapplied_corrections (s : SmartCacheState) : List (String × Correction) :=
  s.corrections.filter (fun p => !p.2.applied)

/-- `mark_correction_applied`: flip `applied` to true when the record exists;
otherwise do nothing. -/
def mark_correction_applied (s : SmartCacheState) (name : String) : SmartCacheState :=
  if (lookupA s.corrections name).isSome then
    { s with corrections := updateA (fun c => { c with applied := true }) s.corrections name }
  else s

/-! ## `Real-debrid-Strm/app/real_debrid_processor.py` -/

/-- `pathlib.PurePosixPath(p).name`: the final path component (trailing
separators and empty components dropped). -/
def pathName (p : String) : String :=
  ((splitChar '/' p).filter (fun s => s ≠ "")).getLastD ""

/-- Index of the last `.` in a character list. -/
def lastDotIdx (l : List Char) : Option Nat :=
  match l.reverse.findIdx? (fun c => c == '.') with
  | some j => some (l.length - 1 - j)
  | none => none

/-- `pathlib` suffix rule: the text from the last dot on, provided that dot
is neither the first nor the last character of the name. -/
def pathSuffix (p : String) : String :=
  let n := pathName p
  match lastDotIdx n.data with
  | some i => if 0 < i ∧ i < n.length - 1 then String.mk (n.data.drop i) else ""
  | none => ""

/-- `pathlib` stem rule: the name without its suffix. -/
def pathStem (p : String) : String :=
  let n := pathName p
  match lastDotIdx n.data with
  | some i => if 0 < i ∧ i < n.length - 1 then String.mk (n.data.take i) else n
  | none => n

/-- The filtering settings of `RealDebridProcessor.__init__` (size in MB;
extension sets lower-case with leading dot). -/
structure FilterCfg where
  minVideoSizeMb : Int
  videoExts : List String
  subtitleExts : List String
  deriving Repr, DecidableEq

/-- The constructor defaults: 300 MB minimum and the fixed extension sets. -/
def defaultFilterCfg : FilterCfg :=
  { minVideoSizeMb := 300
    videoExts := [".mkv", ".mp4", ".avi", ".mov", ".wmv", ".m4v", ".webm", ".flv"]
    subtitleExts := [".srt", ".ass", ".vtt", ".sub", ".idx", ".ssa", ".smi"] }

/-- `Path(filename).suffix.lower()`. -/
def fileExt (filename : String) : String := pyLower (pathSuffix filename)

/-- The `is_video` test of `should_process_file`: known video extension, or a
declared media type mentioning `video`. -/
def isVideoFile (cfg : FilterCfg) (filename mimeType : String) : Bool :=
  cfg.videoExts.contains (fileExt filename) || (mimeType ≠ "" && strContains mimeType "video")

/-- The `is_subtitle` test of `should_process_file`. -/
def isSubtitleFile (cfg : FilterCfg) (filename mimeType : String) : Bool :=
  cfg.subtitleExts.contains (fileExt filename) || (mimeType ≠ "" && strContains mimeType "sub")

/-- The verdict of `should_process_file` (the source also renders the
rejected size in MB inside the reason text; that numeric rendering carries no
control flow and is elided). -/
structure FilterResult where
  process : Bool
  reason : String
  category : Option String
  deriving Repr, DecidableEq

/-- `should_process_file` from `real_debrid_processor.py`. -/
def should_process_file (cfg : FilterCfg) (filename : String) (filesize : Int)
    (mimeType : String) : FilterResult :=
  if filename = "" then ⟨false, "No filename", none⟩
  else
    let isVideo := isVideoFile cfg filename mimeType
    let isSubtitle := isSubtitleFile cfg filename mimeType
    if !isVideo && !isSubtitle then
      ⟨false, "Unsupported extension: " ++ fileExt filename, none⟩
    else if isVideo && cfg.minVideoSizeMb > 0 && filesize < cfg.minVideoSizeMb * 1024 * 1024 then
      ⟨false, "Video file too small", none⟩
    else
      ⟨true, "File meets criteria", some (if isVideo then "Video" else "Subtitle")⟩

/-- `[<>:"/\\|?*]` -/
def ccBadCh : CC := .oneOf ['<', '>', ':', '"', '/', '\\', '|', '?', '*']

/-- `[\x00-\x1f\x7f-\x9f]` -/
def ccCtrl : CC := .or2 (.rng '\x00' '\x1f') (.rng '\x7f' (Char.ofNat 159))

/-- `\.+$` -/
def reDotsTail : Re := rcat [rplus (.cls (.lit '.')), .eol]

/-- `sanitize_folder_name`: strip a media/subtitle extension for single
files, replace illegal characters, drop control characters and trailing dots,
fall back to `"Unknown"`. -/
def sanitize_folder_name (cfg : FilterCfg) (name : String) : String :=
  if name = "" then "Unknown"
  else
    let name1 :=
      if (cfg.videoExts ++ cfg.subtitleExts).contains (pyLower (pathSuffix name)) then
        pathStem name
      else name
    let c := pySub false (.cls ccBadCh) "_" name1
    let c := pySub false (.cls ccCtrl) "" c
    let c := pySub false reDotsTail "" c
    let c := pyStrip c
    if c = "" then "Unknown" else c

/-- `\.[^.]+$` -/
def reTrailExt : Re := rcat [.cls (.lit '.'), rplus (.cls (.compl (.oneOf ['.']))), .eol]

/-- `^(hhd\d+\.com@|hdd\d+\.com@)` -/
def reSiteHead : Re :=
  rcat [.bol, .grp 1 (.alt
    (rcat [rlit "hhd", rplus (.cls .digit), .cls (.lit '.'), rlit "com@"])
    (rcat [rlit "hdd", rplus (.cls .digit), .cls (.lit '.'), rlit "com@"]))]

/-- `(\.mp4|\.mkv|\.avi)$` -/
def reVidExtTail : Re :=
  rcat [.grp 1 (.alt (rcat [.cls (.lit '.'), rlit "mp4"])
    (.alt (rcat [.cls (.lit '.'), rlit "mkv"]) (rcat [.cls (.lit '.'), rlit "avi"]))), .eol]

/-- `%[0-9A-Fa-f]{2}` -/
def rePct : Re :=
  rcat [.cls (.lit '%'),
        .rep (.cls (.or2 (.rng '0' '9') (.or2 (.rng 'A' 'F') (.rng 'a' 'f')))) 2 2]

/-- `[._-]+` -/
def reSepRun : Re := rplus (.cls (.oneOf ['.', '_', '-']))

/-- `\s+` -/
def reWsRun : Re := rplus (.cls .space)

/-- `[^\w\s-]` -/
def reNonWord : Re := .cls (.compl (.or2 .wordc (.or2 .space (.oneOf ['-']))))

/-- The word-boundary truncation loop of `sanitize_filename` (stops at the
first word that would push the accumulated text past 95 characters). -/
def truncWords : List String → String → String
  | [], acc => acc
  | w :: rest, acc =>
    if (acc ++ " " ++ w).length ≤ 95 then
      truncWords rest (if acc = "" then w else acc ++ " " ++ w)
    else acc

/-- The truncation block of `sanitize_filename`: names longer than 100
characters are cut at a word boundary under 95 characters, or hard-cut at
95. -/
def truncStep (c : String) : String :=
  if 100 < c.length then
    let t := truncWords (pySplitWs c) ""
    if t ≠ "" then t else pyTake 95 c
  else c

/-- The cleaning chain of `sanitize_filename` up to (and including) the final
strip: bounded percent decoding, extension and site-prefix stripping,
character cleanup, separator collapsing, truncation. -/
def sanitizeCore (name : String) : String :=
  let c := unquoteLoop 3 name
  let c := pySub false reTrailExt "" c
  let c := pySub false reSiteHead "" c
  let c := pySub true reVidExtTail "" c
  let c := pySub false rePct " " c
  let c := pySub false (.cls ccBadCh) "_" c
  let c := pySub false (.cls ccCtrl) "" c
  let c := pySub false reSepRun " " c
  let c := pySub false reWsRun " " c
  let c := pyStrip c
  let c := pySub false reDotsTail "" c
  pyStrip (truncStep c)

/-- The fallback excerpt of `sanitize_filename`: the original name reduced to
word/whitespace/dash characters, cut to 50 characters and stripped, else
`"media_file"`. -/
def sanitizeFallback (name : String) : String :=
  let fb := pyTake 50 (pySub false reNonWord "" name)
  if pyStrip fb ≠ "" then pyStrip fb else "media_file"

/-- `sanitize_filename` from `real_debrid_processor.py`. -/
def sanitize_filename (name : String) : String :=
  if name = "" then "unknown"
  else
    let c := sanitizeCore name
    if c = "" ∨ c.length < 3 then sanitizeFallback name
    else c

/-- `extract_filename_from_url`: split a `/d/` download URL, take the final
component when it is not just the link id, percent-decode it and strip query
and fragment; anything else (including the `IndexError` path the source
catches) yields `"unknown"`. -/
def extract_filename_from_url (url : String) : String :=
  if url = "" then "unknown"
  else if strContains url "/d/" then
    let parts := splitChar '/' url
    if parts.length < 2 then "unknown"
    else
      let enc := parts.getLastD ""
      let prev := parts.getD (parts.length - 2) ""
      if enc ≠ "" ∧ enc ≠ prev then
        let dec := unquoteLoop 3 enc
        let dec := (splitChar '?' dec).headD ""
        (splitChar '#' dec).headD ""
      else "unknown"
  else "unknown"

/-- A record of the torrent collection (only the fields the grouping reads). -/
structure TorrentRec where
  id : Option String
  filename : Option String
  deriving Repr, DecidableEq

/-- A record of the unrestricted-link collection. -/
structure LinkRec where
  id : Option String
  torrentId : Option String
  link : Option String
  filename : Option String
  download : Option String
  filesize : Option Int
  deriving Repr, DecidableEq

/-- A produced file entry of a torrent group. -/
structure FileEntry where
  url : Option String
  filename : String
  originalFilename : String
  filesize : Int
  deriving Repr, DecidableEq

/-- A torrent group (`folder_name`, accumulated `files`, `torrent_info`). -/
structure GroupData where
  folderName : String
  files : List FileEntry
  torrentInfo : TorrentRec
  deriving Repr, DecidableEq

/-- The torrent-id index: torrents without a (truthy) id are skipped. -/
def buildTorrentMap (ts : List TorrentRec) : List (String × TorrentRec) :=
  ts.foldl (fun m t =>
    match t.id with
    | some i => if i ≠ "" then insertA m i t else m
    | none => m) []

/-- `item.get('filesize', 0)`: an absent size defaults to 0 bytes. -/
def groupFilesize (it : LinkRec) : Int := it.filesize.getD 0

/-- `item.get('filename') or extract_filename_from_url(item.get('download', ''))`. -/
def groupOriginalFilename (it : LinkRec) : String :=
  match it.filename with
  | some f => if f ≠ "" then f else extract_filename_from_url (it.download.getD "")
  | none => extract_filename_from_url (it.download.getD "")

/-- The loop body shared by `_create_torrent_groups` /
`_create_torrent_groups_with_skip`, processing one link record over the
accumulated groups `gs` and consumed-link set `pl`: skip on a missing or
unknown torrent id, on the optional URL-exclusion check of the `_with_skip`
variant (inert when `skipExisting` is false, matching the plain variant line
for line), on an absent or already-consumed link, and on the content filter;
otherwise append a file entry to the (possibly new) group of the parent
torrent and consume the link. -/
def groupStep (cfg : FilterCfg) (tmap : List (String × TorrentRec)) (skipExisting : Bool)
    (existingUrls : List String) (gs : List (String × GroupData)) (pl : List String)
    (item : LinkRec) : List (String × GroupData) × List String :=
  match item.torrentId with
  | none => (gs, pl)
  | some tid =>
    if tid = "" ∨ (lookupA tmap tid).isNone then (gs, pl)
    else if skipExisting && !existingUrls.isEmpty &&
        (match item.link with | some l => existingUrls.contains l | none => false) then
      (gs, pl)
    else
      match item.link with
      | none => (gs, pl)
      | some l =>
        if l ≠ "" ∧ ¬ pl.contains l then
          let origFn := groupOriginalFilename item
          let fsz := groupFilesize item
          if !(should_process_file cfg origFn fsz "").process then (gs, pl)
          else
            let tinfo := (lookupA tmap tid).getD ⟨none, none⟩
            let gname := sanitize_folder_name cfg (tinfo.filename.getD origFn)
            let gs1 :=
              if (lookupA gs gname).isSome then gs
              else gs ++ [(gname, ⟨gname, [], tinfo⟩)]
            let fe : FileEntry := ⟨item.download, sanitize_filename origFn, origFn, fsz⟩
            (updateA (fun g => { g with files := g.files ++ [fe] }) gs1 gname, pl ++ [l])
        else (gs, pl)

/-- The record loop of the grouping functions (`unrestricted_map`, which the
source builds but never reads, is omitted). -/
def groupsAux (cfg : FilterCfg) (tmap : List (String × TorrentRec)) (skipExisting : Bool)
    (existingUrls : List String) :
    List LinkRec → List (String × GroupData) → List String →
    List (String × GroupData) × List String
  | [], gs, pl => (gs, pl)
  | item :: rest, gs, pl =>
    let p := groupStep cfg tmap skipExisting existingUrls gs pl item
    groupsAux cfg tmap skipExisting existingUrls rest p.1 p.2

/-- `_create_torrent_groups` (the plain variant). -/
def createTorrentGroups (cfg : FilterCfg) (torrents : List TorrentRec)
    (items : List LinkRec) : List (String × GroupData) :=
  (groupsAux cfg (buildTorrentMap torrents) false [] items [] []).1

/-- `_create_torrent_groups_with_skip`. -/
def createTorrentGroupsWithSkip (cfg : FilterCfg) (torrents : List TorrentRec)
    (items : List LinkRec) (skipExisting : Bool) (existingUrls : List String) :
    List (String × GroupData) :=
  (groupsAux cfg (buildTorrentMap torrents) skipExisting existingUrls items [] []).1

/-- Total number of file entries across all produced groups. -/
def totalFiles (gs : List (String × GroupData)) : Nat :=
  (gs.map (fun p => p.2.files.length)).sum

/-- The (truthy) link values occurring in a link-record collection. -/
def itemLinks (items : List LinkRec) : List String :=
  items.filterMap (fun it =>
    match it.link with
    | some l => if l ≠ "" then some l else none
    | none => none)

/-- A link record whose torrent id is present, non-empty and known to the
torrent index. -/
def knownTorrentId (tmap : List (String × TorrentRec)) (it : LinkRec) : Bool :=
  match it.torrentId with
  | some tid => tid ≠ "" && (lookupA tmap tid).isSome
  | none => false

/-! ## `modules/correction_processor.py`: `apply_metadata_correction` -/

/-- Metadata returned by the TMDB collaborator (`search_tmdb_*_by_id`). -/
structure TmdbInfo where
  title : String
  year : String
  id : String
  deriving Repr, DecidableEq

/-- Python `str.replace(c, new)` for a one-character needle. -/
def replaceChar (c : Char) (new : String) (s : String) : String :=
  String.mk (s.data.foldr (fun d acc => if d == c then new.data ++ acc else d :: acc) [])

/-- `clean_filename` from `modules/processors.py`: replace filesystem-hostile
characters with safe alternatives, collapse whitespace, trim. -/
def clean_filename (filename : String) : String :=
  let c := replaceChar ':' " -" filename
  let c := replaceChar '|' " -" c
  let c := replaceChar '/' " - " c
  let c := replaceChar '\\' " - " c
  let c := replaceChar '<' "(" c
  let c := replaceChar '>' ")" c
  let c := replaceChar '"' apoCh c
  let c := replaceChar '?' "" c
  let c := replaceChar '*' "" c
  pyStrip (pySub false reWsRun " " c)

/-- A directory tree: absolute folder path mapped to contained file names
(the correction processor only ever lists and renames whole folders and the
files directly inside the renamed folder). -/
structure FS where
  dirs : List (String × List String)
  deriving Repr, DecidableEq

/-- `os.path.exists` for the modelled folders. -/
def fsExists (fs : FS) (p : String) : Bool := (lookupA fs.dirs p).isSome

/-- `os.listdir`. -/
def fsListDir (fs : FS) (p : String) : List String := (lookupA fs.dirs p).getD []

/-- `os.rename` on a folder: move the binding (contents unchanged). -/
def fsRenameDir (fs : FS) (old new : String) : FS :=
  match lookupA fs.dirs old with
  | none => fs
  | some files => ⟨insertA (fs.dirs.filter (fun p => p.1 ≠ old)) new files⟩

/-- `os.rename` on a file inside a folder (POSIX overwrite semantics). -/
def fsRenameFile (fs : FS) (dir old new : String) : FS :=
  ⟨updateA (fun files => (files.filter (fun f => f ≠ new)).map
      (fun f => if f = old then new else f)) fs.dirs dir⟩

/-- `os.path.dirname` (POSIX rule). -/
def dirname (p : String) : String :=
  let chars := p.data
  match (chars.reverse.findIdx? (fun c => c == '/')) with
  | none => ""
  | some j =>
    let i := chars.length - 1 - j
    let head := chars.take (i + 1)
    if head ≠ [] ∧ head.any (fun c => c ≠ '/') then
      String.mk (head.reverse.dropWhile (fun c => c == '/')).reverse
    else String.mk head

/-- `os.path.join` for the two-argument uses of the source. -/
def joinPath (a b : String) : String :=
  if strStartsWith b "/" then b
  else if a = "" ∨ strEndsWith a "/" then a ++ b
  else a ++ "/" ++ b

/-- The collaborators of `apply_metadata_correction`: TMDB by-id lookups and
an oracle deciding which `os.rename` calls succeed (a `false` models the
raised `OSError`). -/
structure CorrEnv where
  tmdbMovie : String → Option TmdbInfo
  tmdbShow : String → Option TmdbInfo
  renameOk : String → String → Bool

/-- `(S\d{2}E\d{2})` (case-sensitive, as in the source). -/
def reSE : Re :=
  .grp 1 (rcat [.cls (.lit 'S'), .rep (.cls .digit) 2 2, .cls (.lit 'E'), .rep (.cls .digit) 2 2])

/-- Result of the `.strm` rename loop: the filesystem after the renames, or
the filesystem at the moment a rename raised. -/
inductive RenRes where
  | done (fs : FS)
  | failed (fs : FS)
  deriving Repr, DecidableEq

/-- The `.strm` rename loop of `apply_metadata_correction` (over the listdir
snapshot; the first failing rename raises out of the loop). -/
def renameStrms (env : CorrEnv) (cls : String) (info : TmdbInfo) :
    FS → String → List String → RenRes
  | fs, _, [] => .done fs
  | fs, dest, f :: rest =>
    if strEndsWith f ".strm" then
      let cleanStrm :=
        if cls = "Movie" then clean_filename (info.title ++ " (" ++ info.year ++ ").strm")
        else
          let se :=
            match search false reSE f with
            | some caps => (getGroups 1 caps).getD 0 ""
            | none => "S01E01"
          clean_filename (info.title ++ " " ++ se ++ ".strm")
      if env.renameOk (joinPath dest f) (joinPath dest cleanStrm) then
        renameStrms env cls info (fsRenameFile fs dest f cleanStrm) dest rest
      else .failed fs
    else renameStrms env cls info fs dest rest

/-- The corrected destination path:
`os.path.join(parent_dir, clean_filename(f"TITLE (YEAR) \x7btmdb-ID\x7d"))`. -/
def newDestPath (oldDest : String) (info : TmdbInfo) : String :=
  joinPath (dirname oldDest)
    (clean_filename (info.title ++ " (" ++ info.year ++ ") \x7btmdb-" ++ info.id ++ "\x7d"))

/-- The distinct exits of `apply_metadata_correction`: the three
`success: False` early returns, the `success: True` save-only return when
the destination folder has vanished, the rename-error return of the `except`
block, a propagated exception when the rollback rename itself fails, and
full success. -/
inductive ApplyOutcome where
  | ok
  | notFound
  | wrongClass
  | vanishedSaved
  | tmdbFailed
  | renameError
  | raised
  deriving Repr, DecidableEq

/-- `apply_metadata_correction` from `modules/correction_processor.py`,
returning the outcome together with the final filesystem and cache state. -/
def apply_metadata_correction (env : CorrEnv) (fs : FS) (s : SmartCacheState)
    (name tmdbId reason : String) : ApplyOutcome × FS × SmartCacheState :=
  match lookupA s.processedFiles name with
  | none => (.notFound, fs, s)
  | some cached =>
    match cached.destPath with
    | none => (.notFound, fs, s)
    | some oldDest =>
      if oldDest = "" then (.notFound, fs, s)
      else
        let cls := cached.classification
        if ¬ (cls = "Movie" ∨ cls = "Shows") then (.wrongClass, fs, s)
        else if ¬ fsExists fs oldDest then
          (.vanishedSaved, fs, add_manual_correction s name cls cls reason (some tmdbId))
        else
          let info? := if cls = "Movie" then env.tmdbMovie tmdbId else env.tmdbShow tmdbId
          match info? with
          | none => (.tmdbFailed, fs, s)
          | some info =>
            let newDest := newDestPath oldDest info
            if ¬ env.renameOk oldDest newDest then
              -- the folder rename raised; the except block rolls back only
              -- if something already exists at the new path
              if fsExists fs newDest then
                if env.renameOk newDest oldDest then
                  (.renameError, fsRenameDir fs newDest oldDest, s)
                else (.raised, fs, s)
              else (.renameError, fs, s)
            else
              let fs1 := fsRenameDir fs oldDest newDest
              match renameStrms env cls info fs1 newDest (fsListDir fs1 newDest) with
              | .done fs2 =>
                (.ok, fs2,
                  update_cached_item
                    (add_manual_correction s name cls cls reason (some tmdbId)) name newDest)
              | .failed fs2 =>
                if fsExists fs2 newDest then
                  if env.renameOk newDest oldDest then
                    (.renameError, fsRenameDir fs2 newDest oldDest, s)
                  else (.raised, fs2, s)
                else (.renameError, fs2, s)

/-! ## Helper lemmas -/

theorem lookupA_insertA_self {α : Type} (l : List (String × α)) (k : String) (v : α) :
    lookupA (insertA l k v) k = some v := by
  induction l with
  | nil => simp [insertA, lookupA]
  | cons hd tl ih =>
    obtain ⟨k0, w⟩ := hd
    by_cases hk : k0 = k
    · simp [insertA, lookupA, hk]
    · simp [insertA, lookupA, hk, ih]

theorem mem_insertA_self {α : Type} (l : List (String × α)) (k : String) (v : α) :
    (k, v) ∈ insertA l k v := by
  induction l with
  | nil => simp [insertA]
  | cons hd tl ih =>
    obtain ⟨k0, w⟩ := hd
    by_cases hk : k0 = k
    · subst hk; simp [insertA]
    · simp [insertA, hk, ih]

theorem mem_keys_insertA {α : Type} (l : List (String × α)) (k a : String) (v : α)
    (h : a ∈ (insertA l k v).map Prod.fst) : a ∈ l.map Prod.fst ∨ a = k := by
  induction l with
  | nil =>
    simp only [insertA, List.map_cons, List.map_nil, List.mem_cons, List.not_mem_nil,
      or_false] at h
    exact Or.inr h
  | cons hd tl ih =>
    obtain ⟨k0, w⟩ := hd
    by_cases hk : k0 = k
    · subst hk
      rw [show insertA ((k0, w) :: tl) k0 v = (k0, v) :: tl from by simp [insertA],
        List.map_cons, List.mem_cons] at h
      exact h.elim (fun h1 => Or.inr h1)
        (fun h2 => Or.inl (by rw [List.map_cons]; exact List.mem_cons_of_mem _ h2))
    · simp only [insertA, if_neg hk, List.map_cons, List.mem_cons] at h
      rcases h with h1 | h2
      · exact Or.inl (by rw [List.map_cons, h1]; exact List.mem_cons_self _ _)
      · rcases ih h2 with h' | h'
        · exact Or.inl (by rw [List.map_cons]; exact List.mem_cons_of_mem _ h')
        · exact Or.inr h'

theorem keys_nodup_insertA {α : Type} (l : List (String × α)) (k : String) (v : α)
    (h : (l.map Prod.fst).Nodup) : ((insertA l k v).map Prod.fst).Nodup := by
  induction l with
  | nil => simp [insertA]
  | cons hd tl ih =>
    obtain ⟨k0, w⟩ := hd
    simp only [List.map_cons, List.nodup_cons] at h
    by_cases hk : k0 = k
    · subst hk
      simpa [insertA] using h
    · simp only [insertA, if_neg hk, List.map_cons, List.nodup_cons]
      refine ⟨fun hmem => ?_, ih h.2⟩
      rcases mem_keys_insertA tl k k0 v hmem with h' | h'
      · exact h.1 h'
      · exact hk h'

theorem lookupA_updateA_ne {α : Type} (f : α → α) (l : List (String × α)) (k a : String)
    (h : a ≠ k) : lookupA (updateA f l k) a = lookupA l a := by
  induction l with
  | nil => simp [updateA]
  | cons hd tl ih =>
    obtain ⟨k0, w⟩ := hd
    by_cases hk : k0 = k
    · subst hk
      have hne : ¬ k0 = a := fun hh => h hh.symm
      simp [updateA, lookupA, hne]
    · simp only [updateA, if_neg hk]
      by_cases ha : k0 = a
      · simp [lookupA, ha]
      · simp [lookupA, ha, ih]

theorem mem_key_of_mem {α : Type} {l : List (String × α)} {a : String} {b : α}
    (h : (a, b) ∈ l) : a ∈ l.map Prod.fst :=
  List.mem_map.mpr ⟨(a, b), h, rfl⟩

/-- `cache_classification` always leaves exactly the inserted binding in the
classification cache (whatever the file-hash side effect does). -/
theorem processedFiles_cache_classification (env : Env) (s : SmartCacheState)
    (name cls : String) (fp : Option String) :
    (cache_classification env s name cls fp).processedFiles
      = insertA s.processedFiles name ⟨cls, fp, none⟩ := by
  cases fp <;> rfl

/-- After `cache_classification` the classification lookup returns the newly
written label. -/
theorem get_cached_after_cache (env : Env) (s : SmartCacheState) (name cls : String)
    (fp : Option String) :
    get_cached_classification (cache_classification env s name cls fp) name = some cls := by
  rw [get_cached_classification, processedFiles_cache_classification, lookupA_insertA_self]
  rfl

/-! ## Concrete environments for witnesses and counterexamples

Concrete rationals are spelled as reduced `num/den` structure literals so
that the kernel can evaluate the threshold comparisons (`Rat.blt` reads the
fields directly). -/

/-- 1/2 as a reduced literal. -/
def q1_2 : ℚ := ⟨1, 2, by norm_num, by norm_num⟩

/-- 7/10 as a reduced literal. -/
def q7_10 : ℚ := ⟨7, 10, by norm_num, by norm_num⟩

/-- 9/10 as a reduced literal. -/
def q9_10 : ℚ := ⟨9, 10, by norm_num, by norm_num⟩

/-- An environment without an OpenAI client (AI escalation disabled). -/
def envNoAI : Env := ⟨false, fun _ _ => ("Movie", q1_2), q7_10, fun _ => ""⟩

/-- An environment whose AI collaborator confidently answers `Shows`. -/
def envShowsAI : Env := ⟨true, fun _ _ => ("Shows", q9_10), q7_10, fun _ => ""⟩

/-- The default confidence threshold (no `AI_CONFIDENCE_THRESHOLD` variable)
is 0.7. -/
theorem default_threshold_value : get_confidence_threshold none = some (7 / 10) := by
  have h1 : splitChar '.' "0.7" = ["0", "7"] := rfl
  have h2 : pyStrip "0.7" = "0.7" := rfl
  have h3 : ¬ (("0.7" : String) = "" ∨ pyStrip "0.7" = "") := by
    rw [h2]; simp
  rw [get_confidence_threshold]
  simp only [Option.getD, if_neg h3, parseDecimal, h1]
  have h4 : strStartsWith "0.7" "-" = false := rfl
  simp only [h4, Bool.false_eq_true, if_false]
  have h5 : digitsToNat ("0" : String).data = 0 := rfl
  have h6 : digitsToNat ("7" : String).data = 7 := rfl
  rw [if_pos (by simp)]
  rw [h5, h6, show ("7" : String).length = 1 from rfl]
  norm_num

/-- The (label, confidence) pair the AI stage obtains: the smart cache's AI
entry when present, else the collaborator call (the traditional label passed
down is always `Movie` at this point of `classify_folder`). -/
def aiPair (env : Env) (s : SmartCacheState) (name : String) : String × ℚ :=
  match lookupA s.aiClassifications name with
  | some e => (e.classification, e.confidence)
  | none => env.aiResult name "Movie"

/-! ## Claim C1 -/

/-- `cache_ai_classification` does not touch the classification cache. -/
theorem processedFiles_cache_ai (s : SmartCacheState) (name c : String) (q : ℚ) :
    (cache_ai_classification s name c q).processedFiles = s.processedFiles := rfl

/-- Claim C1 (amended): `classify` evaluates its stages in the strict
priority order cache lookup, spam/ad filter, JAV detector, TV-episode
detector, `Movie` default, with the first matching stage deciding the
label — except that, on the default path, a sufficiently confident AI
escalation (C4) replaces the `Movie` label.  A cache hit returns the stored
label unchanged, runs no detector and performs no write (the existing entry
remains); every cache-miss terminal branch writes exactly one CacheEntry for
the name. -/
theorem C1_pipeline_order (env : Env) (s : SmartCacheState) (name : String)
    (fp : Option String) :
    (∀ c, get_cached_classification s name = some c →
      classify_folder env s name fp = ⟨c, s, .cacheHit⟩) ∧
    (get_cached_classification s name = none →
      (classify_folder env s name fp).state.processedFiles
        = insertA s.processedFiles name ⟨(classify_folder env s name fp).label, fp, none⟩) ∧
    (get_cached_classification s name = none → is_spam_or_ad name = true →
      classify_folder env s name fp
        = ⟨"SKIP", cache_classification env s name "SKIP" fp, .spam⟩) ∧
    (get_cached_classification s name = none → is_spam_or_ad name = false →
      is_jav_prefix name = true →
      classify_folder env s name fp
        = ⟨"JAV", cache_classification env s name "JAV" fp, .jav⟩) ∧
    (get_cached_classification s name = none → is_spam_or_ad name = false →
      is_jav_prefix name = false → is_tv_show name = true →
      classify_folder env s name fp
        = ⟨"Shows", cache_classification env s name "Shows" fp, .tv⟩) ∧
    (get_cached_classification s name = none → is_spam_or_ad name = false →
      is_jav_prefix name = false → is_tv_show name = false →
      ((classify_folder env s name fp).label = "Movie" ∧
        (classify_folder env s name fp).stage = .movieDefault) ∨
      (should_use_ai env s name fp = true ∧ env.threshold ≤ (aiPair env s name).2 ∧
        (classify_folder env s name fp).label = (aiPair env s name).1 ∧
        (classify_folder env s name fp).stage = .aiOverride)) := by
  refine ⟨?_, ?_, ?_, ?_, ?_, ?_⟩
  · intro c h
    simp [classify_folder, h]
  · intro h
    by_cases h1 : is_spam_or_ad name
    · simp [classify_folder, h, h1, processedFiles_cache_classification]
    · by_cases h2 : is_jav_prefix name
      · simp [classify_folder, h, h1, h2, processedFiles_cache_classification]
      · by_cases h3 : is_tv_show name
        · simp [classify_folder, h, h1, h2, h3, processedFiles_cache_classification]
        · by_cases h4 : should_use_ai env s name fp
          · cases hL : lookupA s.aiClassifications name with
            | some e =>
              by_cases hq : env.threshold ≤ e.confidence <;>
                simp [classify_folder, h, h1, h2, h3, h4, hL, hq,
                  processedFiles_cache_classification]
            | none =>
              rcases hp : env.aiResult name "Movie" with ⟨c, q⟩
              by_cases hq : env.threshold ≤ q <;>
                simp [classify_folder, h, h1, h2, h3, h4, hL, hp, hq,
                  processedFiles_cache_classification, processedFiles_cache_ai]
          · simp [classify_folder, h, h1, h2, h3, h4, processedFiles_cache_classification]
  · intro h h1
    simp [classify_folder, h, h1]
  · intro h h1 h2
    simp [classify_folder, h, h1, h2]
  · intro h h1 h2 h3
    simp [classify_folder, h, h1, h2, h3]
  · intro h h1 h2 h3
    by_cases h4 : should_use_ai env s name fp
    · cases hL : lookupA s.aiClassifications name with
      | some e =>
        by_cases hq : env.threshold ≤ e.confidence
        · exact Or.inr (by simp [classify_folder, h, h1, h2, h3, h4, hL, hq, aiPair])
        · exact Or.inl (by simp [classify_folder, h, h1, h2, h3, h4, hL, hq])
      | none =>
        rcases hp : env.aiResult name "Movie" with ⟨c, q⟩
        by_cases hq : env.threshold ≤ q
        · exact Or.inr (by simp [classify_folder, h, h1, h2, h3, h4, hL, hp, hq, aiPair])
        · exact Or.inl (by simp [classify_folder, h, h1, h2, h3, h4, hL, hp, hq])
    · exact Or.inl (by simp [classify_folder, h, h1, h2, h3, h4])

/-- Claim C1, counterexample to the claim as stated: on `QQ-123` no listed
stage matches (not cached, not spam, not JAV, not a TV pattern), yet with an
available and confident AI collaborator the label is `Shows`, not the `Movie`
default — and a cache hit writes nothing at all (the state is returned
unchanged), so not every terminal branch writes a CacheEntry. -/
theorem C1_pipeline_order_cex :
    (is_spam_or_ad "QQ-123" = false ∧ is_jav_prefix "QQ-123" = false ∧
      is_tv_show "QQ-123" = false) ∧
    (classify_folder envShowsAI emptyState "QQ-123" none).label = "Shows" ∧
    (let s1 := (classify_folder envShowsAI emptyState "QQ-123" none).state
     classify_folder envShowsAI s1 "QQ-123" none = ⟨"Shows", s1, .cacheHit⟩) := by
  decide

/-- Claim C1, witness: the amended pipeline at a spam name, a cache hit, and
a default-`Movie` name with AI disabled. -/
theorem C1_pipeline_order_witness :
    (is_spam_or_ad "广告" = true ∧
      classify_folder envNoAI emptyState "广告" none
        = ⟨"SKIP", cache_classification envNoAI emptyState "广告" "SKIP" none, .spam⟩) ∧
    (get_cached_classification (cache_classification envNoAI emptyState "广告" "SKIP" none)
        "广告" = some "SKIP" ∧
      classify_folder envNoAI (cache_classification envNoAI emptyState "广告" "SKIP" none)
        "广告" none
        = ⟨"SKIP", cache_classification envNoAI emptyState "广告" "SKIP" none, .cacheHit⟩) ∧
    ((classify_folder envNoAI emptyState "zzz" none).label = "Movie" ∧
      (classify_folder envNoAI emptyState "zzz" none).stage = .movieDefault) :=
  ⟨⟨by decide,
      (C1_pipeline_order envNoAI emptyState "广告" none).2.2.1 (by decide) (by decide)⟩,
    ⟨by decide,
      (C1_pipeline_order envNoAI (cache_classification envNoAI emptyState "广告" "SKIP" none)
          "广告" none).1 "SKIP" (by decide)⟩,
    by
      rcases (C1_pipeline_order envNoAI emptyState "zzz" none).2.2.2.2.2 (by decide)
        (by decide) (by decide) (by decide) with h | h
      · exact h
      · exact absurd h.1 (by decide)⟩

/-! ## Claim C2 -/

/-- Claim C2 (amended): for every name accepted by the JAV detector
(`is_jav_prefix`: first satisfied surface-form pattern wins, the detected
prefix must belong to the whitelist, FC2 accepted regardless) that has no
cache entry and is not caught by the spam/ad filter, `classify` returns
`JAV` and writes the `JAV` cache entry; a second call on the same name is
answered from the cache — same label, unchanged state, no detector stage
re-run. -/
theorem C2_jav_classification (env : Env) (s : SmartCacheState) (name : String)
    (fp : Option String)
    (hc : get_cached_classification s name = none)
    (hspam : is_spam_or_ad name = false)
    (hjav : is_jav_prefix name = true) :
    classify_folder env s name fp
      = ⟨"JAV", cache_classification env s name "JAV" fp, .jav⟩ ∧
    classify_folder env (cache_classification env s name "JAV" fp) name fp
      = ⟨"JAV", cache_classification env s name "JAV" fp, .cacheHit⟩ := by
  constructor
  · simp [classify_folder, hc, hspam, hjav]
  · simp [classify_folder, get_cached_after_cache env s name "JAV" fp]

/-- Claim C2, counterexample to the claim as stated: `SONE-564.exe` matches
the whitelisted `SONE` code pattern, yet `classify` returns `SKIP` because
the spam/ad filter (`.*\.exe$`) fires first. -/
theorem C2_jav_classification_cex :
    is_jav_prefix "SONE-564.exe" = true ∧ is_spam_or_ad "SONE-564.exe" = true ∧
    (classify_folder envNoAI emptyState "SONE-564.exe" none).label = "SKIP" := by
  decide

/-- Claim C2, witness: the amended theorem applied to the spec's example
names. -/
theorem C2_jav_classification_witness :
    (get_cached_classification emptyState "SONE-564" = none ∧
      is_spam_or_ad "SONE-564" = false ∧ is_jav_prefix "SONE-564" = true) ∧
    classify_folder envNoAI emptyState "SONE-564" none
      = ⟨"JAV", cache_classification envNoAI emptyState "SONE-564" "JAV" none, .jav⟩ ∧
    is_jav_prefix "169bbs.com@SONE-564_[4K]" = true ∧
    is_jav_prefix "fc2-ppv-4652840-HD" = true :=
  ⟨⟨by decide, by decide, by decide⟩,
    (C2_jav_classification envNoAI emptyState "SONE-564" none (by decide) (by decide)
      (by decide)).1,
    by decide, by decide⟩

/-! ## Claim C3 -/

/-- A season/episode or compact `NxM` marker makes `is_tv_show` fire (its
first two checks). -/
theorem is_tv_show_of_marker (name : String)
    (h : found true reSeasonEp name = true ∨ found true reNxM name = true) :
    is_tv_show name = true := by
  rcases h with h | h
  · simp [is_tv_show, h]
  · by_cases h1 : found true reSeasonEp name <;> simp [is_tv_show, h1, h]

/-- Claim C3 (amended): for every name containing an `S01E01`-style or
`5x09`-style marker that has no cache entry and is not caught by the earlier
spam/ad filter or JAV detector stages, `classify` returns `Shows`. -/
theorem C3_episode_markers (env : Env) (s : SmartCacheState) (name : String)
    (fp : Option String)
    (hc : get_cached_classification s name = none)
    (hspam : is_spam_or_ad name = false)
    (hjav : is_jav_prefix name = false)
    (hmark : found true reSeasonEp name = true ∨ found true reNxM name = true) :
    classify_folder env s name fp
      = ⟨"Shows", cache_classification env s name "Shows" fp, .tv⟩ := by
  simp [classify_folder, hc, hspam, hjav, is_tv_show_of_marker name hmark]

/-- Claim C3, counterexample to the claim as stated: `SONE-564 S01E01`
contains an `S01E01` marker, yet `classify` returns `JAV` because the JAV
detector precedes the TV-episode detector. -/
theorem C3_episode_markers_cex :
    found true reSeasonEp "SONE-564 S01E01" = true ∧
    (classify_folder envNoAI emptyState "SONE-564 S01E01" none).label = "JAV" := by
  decide

/-- Claim C3, witness: the amended theorem at an `S01E01`-style and a
`5x09`-style name. -/
theorem C3_episode_markers_witness :
    (get_cached_classification emptyState "The.Office.S01E01" = none ∧
      is_spam_or_ad "The.Office.S01E01" = false ∧
      is_jav_prefix "The.Office.S01E01" = false ∧
      found true reSeasonEp "The.Office.S01E01" = true) ∧
    classify_folder envNoAI emptyState "The.Office.S01E01" none
      = ⟨"Shows", cache_classification envNoAI emptyState "The.Office.S01E01" "Shows" none,
          .tv⟩ ∧
    ( is_jav_prefix "Friends 5x09" = false ∧ found true reNxM "Friends 5x09" = true) ∧
    classify_folder envNoAI emptyState "Friends 5x09" none
      = ⟨"Shows", cache_classification envNoAI emptyState "Friends 5x09" "Shows" none, .tv⟩ :=
  ⟨⟨by decide, by decide, by decide, by decide⟩,
    C3_episode_markers envNoAI emptyState "The.Office.S01E01" none (by decide) (by decide)
      (by decide) (Or.inl (by decide)),
    ⟨by decide, by decide⟩,
    C3_episode_markers envNoAI emptyState "Friends 5x09" none (by decide) (by decide)
      (by decide) (Or.inr (by decide))⟩

/-! ## Claim C4 -/

/-- Claim C4: when `classify` escalates a name to the AI collaborator (or its
cache) and obtains a (label, confidence) pair, the AI label replaces the
traditional `Movie` label exactly when the confidence reaches the configured
threshold, the traditional label is kept otherwise, the final label is
written to the classification cache in either case, and the default
threshold (absent environment variable) is 0.7. -/
theorem C4_ai_threshold (env : Env) (s : SmartCacheState) (name : String) (fp : Option String)
    (hc : get_cached_classification s name = none)
    (hspam : is_spam_or_ad name = false)
    (hjav : is_jav_prefix name = false)
    (htv : is_tv_show name = false)
    (hai : should_use_ai env s name fp = true) :
    ((classify_folder env s name fp).label
        = (if env.threshold ≤ (aiPair env s name).2 then (aiPair env s name).1 else "Movie")) ∧
    get_cached_classification (classify_folder env s name fp).state name
      = some (classify_folder env s name fp).label ∧
    get_confidence_threshold none = some (7 / 10) := by
  cases hL : lookupA s.aiClassifications name with
  | some e =>
    by_cases hq : env.threshold ≤ e.confidence <;>
      refine ⟨?_, ?_, default_threshold_value⟩ <;>
      simp [classify_folder, hc, hspam, hjav, htv, hai, hL, hq, aiPair,
        get_cached_after_cache]
  | none =>
    rcases hp : env.aiResult name "Movie" with ⟨c, q⟩
    by_cases hq : env.threshold ≤ q <;>
      refine ⟨?_, ?_, default_threshold_value⟩ <;>
      simp [classify_folder, hc, hspam, hjav, htv, hai, hL, hp, hq, aiPair,
        get_cached_after_cache]

/-- Claim C4, witness: a confident `Shows` answer overrides the `Movie`
default and is cached. -/
theorem C4_ai_threshold_witness :
    (get_cached_classification emptyState "QQ-123" = none ∧
      is_spam_or_ad "QQ-123" = false ∧ is_jav_prefix "QQ-123" = false ∧
      is_tv_show "QQ-123" = false ∧ should_use_ai envShowsAI emptyState "QQ-123" none = true) ∧
    (classify_folder envShowsAI emptyState "QQ-123" none).label = "Shows" ∧
    get_cached_classification (classify_folder envShowsAI emptyState "QQ-123" none).state
      "QQ-123" = some "Shows" := by
  have h := C4_ai_threshold envShowsAI emptyState "QQ-123" none (by decide) (by decide)
    (by decide) (by decide) (by decide)
  refine ⟨⟨by decide, by decide, by decide, by decide, by decide⟩, ?_, ?_⟩
  · rw [h.1]; decide
  · rw [h.2.1, h.1]; decide

/-! ## Claim C6 -/

theorem lookupA_updateA_self {α : Type} (f : α → α) (l : List (String × α)) (k : String) :
    lookupA (updateA f l k) k = (lookupA l k).map f := by
  induction l with
  | nil => simp [updateA, lookupA]
  | cons hd tl ih =>
    obtain ⟨k0, w⟩ := hd
    by_cases hk : k0 = k
    · simp [updateA, lookupA, hk]
    · simp [updateA, lookupA, hk, ih]

/-- In a duplicate-free correction store, every binding for `n` left by the
`applied := true` update is applied. -/
theorem applied_after_updateA (l : List (String × Correction)) (n : String)
    (hnd : (l.map Prod.fst).Nodup) (c : Correction)
    (hmem : (n, c) ∈ updateA (fun v => { v with applied := true }) l n) :
    c.applied = true := by
  induction l with
  | nil => simp [updateA] at hmem
  | cons hd tl ih =>
    obtain ⟨k0, w⟩ := hd
    simp only [List.map_cons, List.nodup_cons] at hnd
    by_cases hk : k0 = n
    · subst hk
      rw [show updateA (fun v => { v with applied := true }) ((k0, w) :: tl) k0
          = (k0, { w with applied := true }) :: tl from by simp [updateA]] at hmem
      rcases List.mem_cons.mp hmem with hmem | hmem
      · simp only [Prod.mk.injEq] at hmem
        rw [hmem.2]
      · exact absurd (mem_key_of_mem hmem) hnd.1
    · simp only [updateA, if_neg hk] at hmem
      rcases List.mem_cons.mp hmem with hmem | hmem
      · simp only [Prod.mk.injEq] at hmem
        exact absurd hmem.1.symm hk
      · exact ih hnd.2 hmem

/-- `mark_correction_applied` is idempotent on any state. -/
theorem mark_correction_applied_idem (s : SmartCacheState) (n : String) :
    mark_correction_applied (mark_correction_applied s n) n
      = mark_correction_applied s n := by
  by_cases h : (lookupA s.corrections n).isSome
  · have h2 : (lookupA (updateA (fun c => { c with applied := true }) s.corrections n)
        n).isSome := by
      rw [lookupA_updateA_self]
      rcases Option.isSome_iff_exists.mp h with ⟨v, hv⟩
      simp [hv]
    have h3 : ∀ l : List (String × Correction),
        updateA (fun c => { c with applied := true })
            (updateA (fun c => { c with applied := true }) l n) n
          = updateA (fun c => { c with applied := true }) l n := by
      intro l
      induction l with
      | nil => simp [updateA]
      | cons hd tl ih =>
        obtain ⟨k0, w⟩ := hd
        by_cases hk : k0 = n
        · simp [updateA, hk]
        · simp [updateA, hk, ih]
    simp only [mark_correction_applied, h, if_pos, if_true]
    simp only [h2, if_true]
    simp [h3]
  · simp [mark_correction_applied, h]

/-- Claim C6: after `recordCorrection` (`add_manual_correction`) the
correction appears in `listUnapplied` with `applied = false`; after
`markApplied` it no longer appears there; and a second `markApplied` is a
total no-op (idempotence, no error, no state change). -/
theorem C6_correction_lifecycle (s : SmartCacheState) (name orig corr reason : String)
    (tid : Option String) (hnd : (s.corrections.map Prod.fst).Nodup) :
    ((name, (⟨orig, corr, reason, false, tid⟩ : Correction))
        ∈ get_unapplied_corrections (add_manual_correction s name orig corr reason tid)) ∧
    (∀ c : Correction,
      (name, c) ∉ get_unapplied_corrections
        (mark_correction_applied (add_manual_correction s name orig corr reason tid) name)) ∧
    mark_correction_applied
        (mark_correction_applied (add_manual_correction s name orig corr reason tid) name)
        name
      = mark_correction_applied (add_manual_correction s name orig corr reason tid) name := by
  have hcor : (add_manual_correction s name orig corr reason tid).corrections
      = insertA s.corrections name ⟨orig, corr, reason, false, tid⟩ := rfl
  refine ⟨?_, ?_, mark_correction_applied_idem _ name⟩
  · rw [get_unapplied_corrections, hcor]
    exact List.mem_filter.mpr ⟨mem_insertA_self _ _ _, rfl⟩
  · intro c hmem
    have hnd1 : (((add_manual_correction s name orig corr reason tid).corrections).map
        Prod.fst).Nodup := by
      rw [hcor]; exact keys_nodup_insertA _ _ _ hnd
    have hsome : (lookupA (add_manual_correction s name orig corr reason tid).corrections
        name).isSome := by
      rw [hcor, lookupA_insertA_self]; rfl
    rw [mark_correction_applied, if_pos hsome] at hmem
    rw [get_unapplied_corrections] at hmem
    rcases List.mem_filter.mp hmem with ⟨hm, hp⟩
    rw [applied_after_updateA _ name hnd1 c hm] at hp
    simp at hp

/-- Claim C6, witness: the lifecycle on an initially empty store. -/
theorem C6_correction_lifecycle_witness :
    (([] : List (String × Correction)).map Prod.fst).Nodup ∧
    ((("N", (⟨"Movie", "JAV", "fix", false, none⟩ : Correction))
        ∈ get_unapplied_corrections (add_manual_correction emptyState "N" "Movie" "JAV"
          "fix" none)) ∧
    (∀ c : Correction,
      ("N", c) ∉ get_unapplied_corrections
        (mark_correction_applied (add_manual_correction emptyState "N" "Movie" "JAV" "fix"
          none) "N"))) :=
  ⟨by decide,
    (C6_correction_lifecycle emptyState "N" "Movie" "JAV" "fix" none (by decide)).1,
    (C6_correction_lifecycle emptyState "N" "Movie" "JAV" "fix" none (by decide)).2.1⟩

/-! ## Claim C8 -/

/-- Claim C8: the content filter accepts a file exactly when its extension
or declared media type is a known video or subtitle type and, for video
files, the size reaches the configured minimum (default 300 MB); everything
else is rejected. -/
theorem C8_filter_policy (cfg : FilterCfg) (filename mimeType : String) (filesize : Int)
    (hmin : 0 < cfg.minVideoSizeMb) :
    ((should_process_file cfg filename filesize mimeType).process = true ↔
      (filename ≠ "" ∧
        (isVideoFile cfg filename mimeType = true ∨ isSubtitleFile cfg filename mimeType = true) ∧
        (isVideoFile cfg filename mimeType = true →
          cfg.minVideoSizeMb * 1024 * 1024 ≤ filesize))) ∧
    defaultFilterCfg.minVideoSizeMb = 300 := by
  refine ⟨?_, rfl⟩
  by_cases hf : filename = ""
  · simp [should_process_file, hf]
  · cases hv : isVideoFile cfg filename mimeType with
    | false =>
      cases hs : isSubtitleFile cfg filename mimeType <;>
        simp [should_process_file, hf, hv, hs]
    | true =>
      by_cases hlt : filesize < cfg.minVideoSizeMb * 1024 * 1024
      · cases hs : isSubtitleFile cfg filename mimeType <;>
          simp [should_process_file, hf, hv, hs, hmin, hlt]
      · cases hs : isSubtitleFile cfg filename mimeType <;>
          · simp [should_process_file, hf, hv, hs, hmin, hlt]
            omega

/-- Claim C8, witness: a 400 MB `.mkv` passes the default filter. -/
theorem C8_filter_policy_witness :
    (0 : Int) < defaultFilterCfg.minVideoSizeMb ∧
    (should_process_file defaultFilterCfg "movie.mkv" 419430400 "").process = true :=
  ⟨by decide,
    ((C8_filter_policy defaultFilterCfg "movie.mkv" "" 419430400 (by decide)).1).mpr
      ⟨by decide, Or.inl (by decide), fun _ => by decide⟩⟩

/-! ## Claim C10 -/

/-- Claim C10: with no declared media type (as in grouping), a file with a
known subtitle extension is accepted regardless of its size, while a file
with a known video extension and size 0 — the default for an absent size
field in grouping — is rejected whenever the configured minimum is
positive. -/
theorem C10_subtitle_exempt_video_zero (cfg : FilterCfg) (name : String) (filesize : Int) :
    (cfg.subtitleExts.contains (fileExt name) = true →
      cfg.videoExts.contains (fileExt name) = false → name ≠ "" →
      (should_process_file cfg name filesize "").process = true) ∧
    (cfg.videoExts.contains (fileExt name) = true → 0 < cfg.minVideoSizeMb → filesize ≤ 0 →
      (should_process_file cfg name filesize "").process = false) ∧
    (∀ it : LinkRec, it.filesize = none → groupFilesize it = 0) := by
  refine ⟨?_, ?_, ?_⟩
  · intro hs hv hn
    have hv' : fileExt name ∉ cfg.videoExts := by simpa using hv
    have hs' : fileExt name ∈ cfg.subtitleExts := by simpa using hs
    have hsV : isVideoFile cfg name "" = false := by simp [isVideoFile, hv']
    have hsS : isSubtitleFile cfg name "" = true := by simp [isSubtitleFile, hs']
    simp [should_process_file, hn, hsV, hsS]
  · intro hv hmin hsz
    have hv' : fileExt name ∈ cfg.videoExts := by simpa using hv
    have hsV : isVideoFile cfg name "" = true := by simp [isVideoFile, hv']
    have hlt : filesize < cfg.minVideoSizeMb * 1024 * 1024 := by
      have h1 : (0 : Int) < cfg.minVideoSizeMb * 1024 * 1024 := by positivity
      omega
    by_cases hn : name = ""
    · simp [should_process_file, hn]
    · simp [should_process_file, hn, hsV, hmin, hlt]
  · intro it h
    simp [groupFilesize, h]

/-- Claim C10, witness: a zero-byte `.srt` is accepted and a zero-byte
`.mkv` is rejected under the default configuration. -/
theorem C10_subtitle_exempt_video_zero_witness :
    (defaultFilterCfg.subtitleExts.contains (fileExt "sub.srt") = true ∧
      (should_process_file defaultFilterCfg "sub.srt" 0 "").process = true) ∧
    (defaultFilterCfg.videoExts.contains (fileExt "mov.mkv") = true ∧
      (should_process_file defaultFilterCfg "mov.mkv" 0 "").process = false) :=
  ⟨⟨by decide,
      (C10_subtitle_exempt_video_zero defaultFilterCfg "sub.srt" 0).1 (by decide) (by decide)
        (by decide)⟩,
    ⟨by decide,
      (C10_subtitle_exempt_video_zero defaultFilterCfg "mov.mkv" 0).2.1 (by decide)
        (by decide) (by decide)⟩⟩

/-! ## Claim C9 -/

theorem length_dropWhileLe (p : Char → Bool) (l : List Char) :
    (l.dropWhile p).length ≤ l.length := by
  induction l with
  | nil => simp
  | cons a l ih =>
    rw [List.dropWhile_cons]
    by_cases h : p a
    · simp only [h, if_true]
      exact le_trans ih (by simp)
    · simp [h]

theorem length_pyStrip_le (s : String) : (pyStrip s).length ≤ s.length := by
  show (((s.data.dropWhile isPySpace).reverse.dropWhile isPySpace).reverse).length ≤ s.data.length
  rw [List.length_reverse]
  calc ((s.data.dropWhile isPySpace).reverse.dropWhile isPySpace).length
      ≤ (s.data.dropWhile isPySpace).reverse.length := length_dropWhileLe _ _
    _ = (s.data.dropWhile isPySpace).length := List.length_reverse _
    _ ≤ s.data.length := length_dropWhileLe _ _

theorem length_pyTake_le (n : Nat) (s : String) : (pyTake n s).length ≤ n := by
  show (s.data.take n).length ≤ n
  simp [List.length_take]

theorem truncWords_le (ws : List String) (acc : String) (h : acc.length ≤ 95) :
    (truncWords ws acc).length ≤ 95 := by
  induction ws generalizing acc with
  | nil => simpa [truncWords] using h
  | cons w rest ih =>
    rw [truncWords]
    by_cases hc : (acc ++ " " ++ w).length ≤ 95
    · rw [if_pos hc]
      refine ih _ ?_
      by_cases ha : acc = ""
      · rw [if_pos ha]
        rw [ha, show (("" : String) ++ " ") = " " from rfl, String.length_append,
          show (" " : String).length = 1 from rfl] at hc
        omega
      · rw [if_neg ha]
        exact hc
    · rw [if_neg hc]
      exact h

theorem truncStep_le (c : String) : (truncStep c).length ≤ 100 := by
  rw [truncStep]
  by_cases h : 100 < c.length
  · rw [if_pos h]
    by_cases ht : truncWords (pySplitWs c) "" = ""
    · simp only [ht, ne_eq, not_true_eq_false, if_false]
      exact le_trans (length_pyTake_le 95 c) (by omega)
    · simp only [ne_eq, ht, not_false_eq_true, if_true]
      exact le_trans (truncWords_le (pySplitWs c) "" (by simp)) (by omega)
  · rw [if_neg h]
    omega

theorem sanitizeCore_le (name : String) : (sanitizeCore name).length ≤ 100 := by
  rw [sanitizeCore]
  exact le_trans (length_pyStrip_le _) (truncStep_le _)

/-- Claim C9 (amended): for every non-empty input, `sanitize_filename`
returns a non-empty string of at most 100 characters; an output shorter than
3 characters occurs exactly when the cleaned name degenerated and the
fallback excerpt of the original (word/space/dash characters, first 50,
stripped) is itself non-empty but shorter than 3 characters — in which case
that excerpt is returned. -/
theorem C9_sanitize_filename_bounds (name : String) (h : name ≠ "") :
    sanitize_filename name ≠ "" ∧ (sanitize_filename name).length ≤ 100 ∧
    ((sanitize_filename name).length < 3 →
      sanitize_filename name = pyStrip (pyTake 50 (pySub false reNonWord "" name)) ∧
      pyStrip (pyTake 50 (pySub false reNonWord "" name)) ≠ "") := by
  rw [sanitize_filename, if_neg h]
  by_cases hc : sanitizeCore name = "" ∨ (sanitizeCore name).length < 3
  · rw [if_pos hc, sanitizeFallback]
    by_cases hf : pyStrip (pyTake 50 (pySub false reNonWord "" name)) ≠ ""
    · rw [if_pos hf]
      exact ⟨hf, le_trans (length_pyStrip_le _) (le_trans (length_pyTake_le _ _) (by omega)),
        fun _ => ⟨rfl, hf⟩⟩
    · rw [if_neg hf]
      refine ⟨by decide, by decide, fun hlt => ?_⟩
      exact absurd hlt (by decide)
  · rw [if_neg hc]
    push_neg at hc
    exact ⟨hc.1, sanitizeCore_le name, fun hlt => absurd hlt (by omega)⟩

/-- Claim C9, counterexample to the claim as stated: the two-character input
`ab` (characters are available) is returned unchanged, shorter than 3
characters. -/
theorem C9_sanitize_filename_bounds_cex :
    sanitize_filename "ab" = "ab" ∧ ("ab" : String) ≠ "" ∧
    (sanitize_filename "ab").length < 3 := by
  decide

/-- Claim C9, witness: the amended bounds at a typical release name. -/
theorem C9_sanitize_filename_bounds_witness :
    ("Interstellar.2014.2160p.PROPER.mkv" : String) ≠ "" ∧
    sanitize_filename "Interstellar.2014.2160p.PROPER.mkv" ≠ "" ∧
    (sanitize_filename "Interstellar.2014.2160p.PROPER.mkv").length ≤ 100 :=
  ⟨by decide,
    (C9_sanitize_filename_bounds "Interstellar.2014.2160p.PROPER.mkv" (by decide)).1,
    (C9_sanitize_filename_bounds "Interstellar.2014.2160p.PROPER.mkv" (by decide)).2.1⟩

/-! ## Claim C5 -/

/-- Concrete correction scenario: an existing destination folder holding one
`.strm` file, a cache entry pointing at it, a TMDB hit, and a rename oracle
that fails exactly on `.strm` files (so the folder rename succeeds and the
file rename raises). -/
def corrOld : String := "/media/Movies/Wrong (1999)"

def corrFs0 : FS := ⟨[(corrOld, ["a.strm"])]⟩

def corrEntry : CacheEntry := ⟨"Movie", none, some corrOld⟩

def corrS0 : SmartCacheState := { emptyState with processedFiles := [("X", corrEntry)] }

def corrInfo : TmdbInfo := ⟨"Right", "2020", "5"⟩

def corrEnv0 : CorrEnv :=
  ⟨fun _ => some corrInfo, fun _ => none, fun a _ => !(strEndsWith a ".strm")⟩

/-- Claim C5 (amended): when a rename fails after the destination folder was
renamed, the folder rename is rolled back before the error is returned and
the old destination exists again — but the correction record is not saved on
that path (the state is returned unchanged); the correction record is saved,
for a future run, when the destination folder no longer exists (and on full
success). -/
theorem C5_rename_rollback (env : CorrEnv) (fs : FS) (s : SmartCacheState)
    (name tmdbId reason oldDest : String) (e : CacheEntry) (info : TmdbInfo) (fs2 : FS)
    (hlk : lookupA s.processedFiles name = some e)
    (hdp : e.destPath = some oldDest)
    (hne : oldDest ≠ "")
    (hcls : e.classification = "Movie")
    (hex : fsExists fs oldDest = true)
    (htm : env.tmdbMovie tmdbId = some info)
    (hr1 : env.renameOk oldDest (newDestPath oldDest info) = true)
    (hfail : renameStrms env "Movie" info (fsRenameDir fs oldDest (newDestPath oldDest info))
        (newDestPath oldDest info)
        (fsListDir (fsRenameDir fs oldDest (newDestPath oldDest info))
          (newDestPath oldDest info))
        = .failed fs2)
    (hback : fsExists fs2 (newDestPath oldDest info) = true)
    (hrb : env.renameOk (newDestPath oldDest info) oldDest = true) :
    apply_metadata_correction env fs s name tmdbId reason
      = (.renameError, fsRenameDir fs2 (newDestPath oldDest info) oldDest, s) ∧
    fsExists (fsRenameDir fs2 (newDestPath oldDest info) oldDest) oldDest = true ∧
    (∀ fs' : FS, fsExists fs' oldDest = false →
      apply_metadata_correction env fs' s name tmdbId reason
        = (.vanishedSaved, fs',
            add_manual_correction s name "Movie" "Movie" reason (some tmdbId)) ∧
      lookupA (add_manual_correction s name "Movie" "Movie" reason (some tmdbId)).corrections
          name = some ⟨"Movie", "Movie", reason, false, some tmdbId⟩) := by
  refine ⟨?_, ?_, ?_⟩
  · simp only [apply_metadata_correction, hlk, hdp, hne, hcls, hex, htm]
    simp [hne, hr1, hfail, hback, hrb]
  · rcases Option.isSome_iff_exists.mp (by simpa [fsExists] using hback) with ⟨files, hfl⟩
    simp [fsRenameDir, hfl, fsExists, lookupA_insertA_self]
  · intro fs' hnex
    constructor
    · simp only [apply_metadata_correction, hlk, hdp, hne, hcls, hnex, htm]
      simp [hne, hnex]
    · have hcor : (add_manual_correction s name "Movie" "Movie" reason
          (some tmdbId)).corrections
          = insertA s.corrections name ⟨"Movie", "Movie", reason, false, some tmdbId⟩ := rfl
      rw [hcor, lookupA_insertA_self]

/-- Claim C5, counterexample to the claim as stated: in the concrete
scenario the `.strm` rename fails, the folder rename is rolled back and an
error returned — but the correction store is left empty, so the record is
not "still saved". -/
theorem C5_rename_rollback_cex :
    apply_metadata_correction corrEnv0 corrFs0 corrS0 "X" "5" ""
      = (.renameError, corrFs0, corrS0) ∧
    corrS0.corrections = [] := by
  decide

/-- Claim C5, witness: the amended theorem applied to the concrete
scenario. -/
theorem C5_rename_rollback_witness :
    (lookupA corrS0.processedFiles "X" = some corrEntry ∧
      corrEntry.destPath = some corrOld ∧ corrEntry.classification = "Movie" ∧
      fsExists corrFs0 corrOld = true ∧ corrEnv0.tmdbMovie "5" = some corrInfo ∧
      corrEnv0.renameOk corrOld (newDestPath corrOld corrInfo) = true) ∧
    apply_metadata_correction corrEnv0 corrFs0 corrS0 "X" "5" ""
      = (.renameError,
          fsRenameDir (fsRenameDir corrFs0 corrOld (newDestPath corrOld corrInfo))
            (newDestPath corrOld corrInfo) corrOld,
          corrS0) :=
  ⟨⟨by decide, by decide, by decide, by decide, by decide, by decide⟩,
    (C5_rename_rollback corrEnv0 corrFs0 corrS0 "X" "5" "" corrOld corrEntry corrInfo
      (fsRenameDir corrFs0 corrOld (newDestPath corrOld corrInfo))
      (by decide) (by decide) (by decide) (by decide) (by decide) (by decide) (by decide)
      (by decide) (by decide) (by decide)).1⟩

/-! ## Claim C7 -/

theorem totalFiles_append_empty (gs : List (String × GroupData)) (k : String)
    (g : GroupData) (hg : g.files = []) : totalFiles (gs ++ [(k, g)]) = totalFiles gs := by
  simp [totalFiles, hg]

theorem lookupA_append_of_none {α : Type} (gs : List (String × α)) (k : String) (v : α)
    (h : lookupA gs k = none) : lookupA (gs ++ [(k, v)]) k = some v := by
  induction gs with
  | nil => simp [lookupA]
  | cons hd tl ih =>
    obtain ⟨k0, w⟩ := hd
    by_cases hk : k0 = k
    · simp [lookupA, hk] at h
    · rw [List.cons_append]
      simp only [lookupA, if_neg hk] at h ⊢
      exact ih h

theorem totalFiles_updateA_push (gs : List (String × GroupData)) (k : String)
    (fe : FileEntry) (h : (lookupA gs k).isSome) :
    totalFiles (updateA (fun g => { g with files := g.files ++ [fe] }) gs k)
      = totalFiles gs + 1 := by
  induction gs with
  | nil => simp [lookupA] at h
  | cons hd tl ih =>
    obtain ⟨k0, g⟩ := hd
    by_cases hk : k0 = k
    · simp only [updateA, if_pos hk, totalFiles, List.map_cons, List.sum_cons]
      simp
      omega
    · simp only [lookupA, hk, if_false] at h
      simp only [updateA, if_neg hk, totalFiles, List.map_cons, List.sum_cons]
      have := ih h
      simp only [totalFiles] at this
      omega

theorem mem_itemLinks_cons (item : LinkRec) (rest : List LinkRec) (x : String)
    (h : (item.link = some x ∧ x ≠ "") ∨ x ∈ itemLinks rest) :
    x ∈ itemLinks (item :: rest) := by
  rcases h with ⟨h1, h2⟩ | h1
  · rw [itemLinks]
    refine List.mem_filterMap.mpr ⟨item, List.mem_cons_self _ _, ?_⟩
    simp [h1, h2]
  · rw [itemLinks] at h1 ⊢
    rcases List.mem_filterMap.mp h1 with ⟨a, ha, hfa⟩
    exact List.mem_filterMap.mpr ⟨a, List.mem_cons_of_mem _ ha, hfa⟩

/-- One grouping step preserves the file-count/consumed-link correspondence:
the consumed-link set stays duplicate-free, grows only by the record's own
link, and the total file count equals its size. -/
theorem groupStep_invariant (cfg : FilterCfg) (tmap : List (String × TorrentRec))
    (sk : Bool) (urls : List String) (gs : List (String × GroupData)) (pl : List String)
    (item : LinkRec) (h1 : totalFiles gs = pl.length) (h2 : pl.Nodup) :
    totalFiles (groupStep cfg tmap sk urls gs pl item).1
        = (groupStep cfg tmap sk urls gs pl item).2.length ∧
    (groupStep cfg tmap sk urls gs pl item).2.Nodup ∧
    ∀ x ∈ (groupStep cfg tmap sk urls gs pl item).2,
      x ∈ pl ∨ (item.link = some x ∧ x ≠ "") := by
  cases htid : item.torrentId with
  | none =>
    simp only [groupStep, htid]
    exact ⟨h1, h2, fun x hx => Or.inl hx⟩
  | some tid =>
    simp only [groupStep, htid]
    by_cases hvalid : tid = "" ∨ (lookupA tmap tid).isNone
    · simp only [if_pos hvalid]
      exact ⟨h1, h2, fun x hx => Or.inl hx⟩
    · simp only [if_neg hvalid]
      by_cases hskip : (sk && !urls.isEmpty &&
          (match item.link with | some l => urls.contains l | none => false)) = true
      · simp only [hskip, if_true]
        exact ⟨h1, h2, fun x hx => Or.inl hx⟩
      · simp only [hskip, if_false]
        cases hlink : item.link with
        | none =>
          exact ⟨h1, h2, fun x hx => Or.inl hx⟩
        | some l =>
          by_cases hfresh : l ≠ "" ∧ ¬ pl.contains l
          · simp only [if_pos hfresh]
            by_cases hproc : !(should_process_file cfg (groupOriginalFilename item)
                (groupFilesize item) "").process
            · simp only [hproc, if_true]
              exact ⟨h1, h2, fun x hx => Or.inl hx⟩
            · simp only [hproc, if_false]
              have hnotin : l ∉ pl := by
                intro hmem
                exact hfresh.2 (by simpa using hmem)
              set tinfo := (lookupA tmap tid).getD ⟨none, none⟩ with htinfo
              set gname := sanitize_folder_name cfg
                (tinfo.filename.getD (groupOriginalFilename item)) with hgname
              have hsome : (lookupA (if (lookupA gs gname).isSome then gs
                  else gs ++ [(gname, ⟨gname, [], tinfo⟩)]) gname).isSome := by
                by_cases hg : (lookupA gs gname).isSome
                · simp [hg]
                · rw [if_neg hg, lookupA_append_of_none gs gname _
                    (Option.not_isSome_iff_eq_none.mp hg)]
                  rfl
              have htot : totalFiles (if (lookupA gs gname).isSome then gs
                  else gs ++ [(gname, ⟨gname, [], tinfo⟩)]) = totalFiles gs := by
                by_cases hg : (lookupA gs gname).isSome
                · rw [if_pos hg]
                · rw [if_neg hg, totalFiles_append_empty]
                  rfl
              refine ⟨?_, ?_, ?_⟩
              · show totalFiles (updateA (fun g => { g with files := g.files ++
                    [⟨item.download, sanitize_filename (groupOriginalFilename item),
                      groupOriginalFilename item, groupFilesize item⟩] })
                    (if (lookupA gs gname).isSome then gs
                     else gs ++ [(gname, ⟨gname, [], tinfo⟩)]) gname)
                  = (pl ++ [l]).length
                rw [totalFiles_updateA_push _ _ _ hsome, htot, h1]
                simp
              · show (pl ++ [l]).Nodup
                simp only [List.nodup_append]
                exact ⟨h2, List.nodup_singleton l,
                  fun a ha hb => hnotin ((List.mem_singleton.mp hb) ▸ ha)⟩
              · show ∀ x ∈ pl ++ [l], x ∈ pl ∨ (some l = some x ∧ x ≠ "")
                intro x hx
                rcases List.mem_append.mp hx with hx | hx
                · exact Or.inl hx
                · refine Or.inr ⟨?_, ?_⟩
                  · rw [List.mem_singleton.mp hx]
                  · rw [List.mem_singleton.mp hx]
                    exact hfresh.1
          · simp only [if_neg hfresh]
            exact ⟨h1, h2, fun x hx => Or.inl hx⟩

/-- The record loop preserves the invariant, and every consumed link comes
from the input records. -/
theorem groupsAux_invariant (cfg : FilterCfg) (tmap : List (String × TorrentRec))
    (sk : Bool) (urls : List String) :
    ∀ (items : List LinkRec) (gs : List (String × GroupData)) (pl : List String),
      totalFiles gs = pl.length → pl.Nodup →
      totalFiles (groupsAux cfg tmap sk urls items gs pl).1
          = (groupsAux cfg tmap sk urls items gs pl).2.length ∧
      (groupsAux cfg tmap sk urls items gs pl).2.Nodup ∧
      ∀ x ∈ (groupsAux cfg tmap sk urls items gs pl).2, x ∈ pl ∨ x ∈ itemLinks items := by
  intro items
  induction items with
  | nil =>
    intro gs pl h1 h2
    exact ⟨h1, h2, fun x hx => Or.inl hx⟩
  | cons item rest ih =>
    intro gs pl h1 h2
    have hstep := groupStep_invariant cfg tmap sk urls gs pl item h1 h2
    have hrec := ih (groupStep cfg tmap sk urls gs pl item).1
      (groupStep cfg tmap sk urls gs pl item).2 hstep.1 hstep.2.1
    refine ⟨hrec.1, hrec.2.1, ?_⟩
    intro x hx
    rcases hrec.2.2 x hx with hx1 | hx1
    · rcases hstep.2.2 x hx1 with hx2 | hx2
      · exact Or.inl hx2
      · exact Or.inr (mem_itemLinks_cons item rest x (Or.inl hx2))
    · exact Or.inr (mem_itemLinks_cons item rest x (Or.inr hx1))

/-- A record with a missing or unknown torrent id is skipped unchanged. -/
theorem groupStep_unknown (cfg : FilterCfg) (tmap : List (String × TorrentRec)) (sk : Bool)
    (urls : List String) (gs : List (String × GroupData)) (pl : List String) (item : LinkRec)
    (h : knownTorrentId tmap item = false) :
    groupStep cfg tmap sk urls gs pl item = (gs, pl) := by
  cases htid : item.torrentId with
  | none => simp [groupStep, htid]
  | some tid =>
    rw [knownTorrentId, htid] at h
    have hcond : tid = "" ∨ (lookupA tmap tid).isNone := by
      rcases Bool.and_eq_false_iff.mp h with h1 | h1
      · left
        simpa using h1
      · right
        simpa [Option.isNone_iff_eq_none, Option.not_isSome_iff_eq_none] using h1
    simp only [groupStep, htid]
    rw [if_pos hcond]

/-- Dropping all records with missing/unknown torrent ids does not change the
grouping result. -/
theorem groupsAux_filter_known (cfg : FilterCfg) (tmap : List (String × TorrentRec))
    (sk : Bool) (urls : List String) :
    ∀ (items : List LinkRec) (gs : List (String × GroupData)) (pl : List String),
      groupsAux cfg tmap sk urls (items.filter (fun it => knownTorrentId tmap it)) gs pl
        = groupsAux cfg tmap sk urls items gs pl := by
  intro items
  induction items with
  | nil => intro gs pl; rfl
  | cons item rest ih =>
    intro gs pl
    by_cases hk : knownTorrentId tmap item
    · rw [List.filter_cons_of_pos (by simpa using hk)]
      show groupsAux cfg tmap sk urls (rest.filter (fun it => knownTorrentId tmap it)) _ _ = _
      rw [ih]
      rfl
    · rw [List.filter_cons_of_neg (by simpa using hk)]
      rw [ih]
      show _ = groupsAux cfg tmap sk urls rest
        (groupStep cfg tmap sk urls gs pl item).1 (groupStep cfg tmap sk urls gs pl item).2
      rw [groupStep_unknown cfg tmap sk urls gs pl item (Bool.not_eq_true _ ▸ by simpa using hk)]

theorem nodup_sub_le_dedup (pl L : List String) (hnd : pl.Nodup)
    (hsub : ∀ x ∈ pl, x ∈ L) : pl.length ≤ L.dedup.length := by
  calc pl.length = pl.toFinset.card := (List.toFinset_card_of_nodup hnd).symm
    _ ≤ L.toFinset.card := Finset.card_le_card
        (fun x hx => List.mem_toFinset.mpr (hsub x (List.mem_toFinset.mp hx)))
    _ = L.dedup.length := List.card_toFinset L

/-- Claim C7: in torrent grouping (both the plain and the skip variant), two
link records sharing the same link value contribute only one FileEntry across
all produced groups — the total file count is bounded by the number of
distinct link values — and a link record whose torrent id is missing or
unknown contributes no FileEntry at all (dropping all such records leaves the
output unchanged). -/
theorem C7_grouping_dedup (cfg : FilterCfg) (torrents : List TorrentRec)
    (items : List LinkRec) (skip : Bool) (urls : List String) :
    totalFiles (createTorrentGroups cfg torrents items) ≤ (itemLinks items).dedup.length ∧
    totalFiles (createTorrentGroupsWithSkip cfg torrents items skip urls)
        ≤ (itemLinks items).dedup.length ∧
    createTorrentGroups cfg torrents
        (items.filter (fun it => knownTorrentId (buildTorrentMap torrents) it))
      = createTorrentGroups cfg torrents items ∧
    createTorrentGroupsWithSkip cfg torrents
        (items.filter (fun it => knownTorrentId (buildTorrentMap torrents) it)) skip urls
      = createTorrentGroupsWithSkip cfg torrents items skip urls := by
  have hplain := groupsAux_invariant cfg (buildTorrentMap torrents) false [] items [] []
    (by simp [totalFiles]) List.nodup_nil
  have hskip := groupsAux_invariant cfg (buildTorrentMap torrents) skip urls items [] []
    (by simp [totalFiles]) List.nodup_nil
  refine ⟨?_, ?_, ?_, ?_⟩
  · rw [createTorrentGroups, hplain.1]
    exact nodup_sub_le_dedup _ _ hplain.2.1
      (fun x hx => (hplain.2.2 x hx).resolve_left (by simp))
  · rw [createTorrentGroupsWithSkip, hskip.1]
    exact nodup_sub_le_dedup _ _ hskip.2.1
      (fun x hx => (hskip.2.2 x hx).resolve_left (by simp))
  · rw [createTorrentGroups, createTorrentGroups,
      groupsAux_filter_known cfg (buildTorrentMap torrents) false [] items [] []]
  · rw [createTorrentGroupsWithSkip, createTorrentGroupsWithSkip,
      groupsAux_filter_known cfg (buildTorrentMap torrents) skip urls items [] []]

end RDMO
